import Mathlib

/-!
# cmonitor: control-group limits and samplers (`src/njmon_cgroups.cpp`)

A shallow embedding of the functions of `njmon_cgroups.cpp` together with the
properties of them that are checked here.

Conventions of the embedding.

* `std::string` is `String`; `char` buffers are `List Char`.
* `uint64_t` values are natural numbers kept below `2 ^ 64`; the unsigned
  subtraction of the C++ source is written with an explicit `% 2 ^ 64`.
* `double` values are rational numbers: the arithmetic on them is exact, the
  rounding of IEEE-754 is not part of the model.
* Helpers that `njmon.h` declares and that are defined in another translation
  unit (`split_string_in_array`, `string2int`, `read_integer`,
  `read_integers_with_range_validation`, `file_exists`) are parameters of the
  functions that call them.
* Function-local `static` variables and the global variables of the file are
  fields of `AppState`, which is passed explicitly.
* The output calls `psection`, `psub`, `plong`, ... are recorded as a list
  of `Out` events.
* `debug` is `0` (its initial value): the `printf` calls it guards are left out.
-/

set_option maxRecDepth 100000

namespace Cmonitor

/-! ## Constants -/

/-- Embedding of `#define MAX_LOGICAL_CPU (256)`. -/
def MAX_LOGICAL_CPU : Nat := 256

/-- Embedding of `#define MIN_ELAPSED_SECS (0.1)`. -/
def MIN_ELAPSED_SECS : ℚ := 1 / 10

/-- Embedding of `INT32_MAX`. -/
def INT32_MAX : Int := 2147483647

/-! ## Strings -/

/-- Embedding of `haystack.find(needle) != std::string::npos`: the needle occurs at some
position of the haystack (the empty needle occurs everywhere). -/
def str_contains (needle : List Char) : List Char → Bool
  | [] => needle.isEmpty
  | c :: cs => needle.isPrefixOf (c :: cs) || str_contains needle cs

/-- Modelled from the spec: `split_string_in_array`, which `njmon.h` declares and
another translation unit defines.  The spec speaks of the fields of a line
delimited by the separator character: the line is cut at every occurrence of
the separator, and a piece that the end of the line closes counts only when it
is not empty.  `cur` is the piece being read, in reverse. -/
def split_chars (delim : Char) : List Char → List Char → List String
  | cur, [] => if cur.isEmpty then [] else [String.mk cur.reverse]
  | cur, c :: cs =>
    if c = delim then String.mk cur.reverse :: split_chars delim [] cs
    else split_chars delim (c :: cur) cs

/-- Modelled from the spec: `split_string_in_array(str, delim)`, see `split_chars`. -/
def split_string_in_array_model (str : String) (delim : Char) : List String :=
  split_chars delim [] str.data

/-! ## `get_cgroup_path_for_pid` -/

/-- The `while (std::getline(inputf, line))` loop of `get_cgroup_path_for_pid`
over the lines still to be read.  The result is the returned `bool` and the
value of `cgroup_pathOUT` on return. -/
def scan_mounts (split : String → Char → List String) (cgroup_type : String)
    (cgroup_pathOUT : String) : List String → Bool × String
  | [] => (false, cgroup_pathOUT)
  | line :: rest =>
    let tuple := split line ' '
    if tuple.length ≠ 6 then (false, cgroup_pathOUT)
    else
      let fs_spec := tuple.getD 0 ""
      let fs_file := tuple.getD 1 ""
      let fs_mntops := tuple.getD 3 ""
      if fs_spec = "cgroup" ∧ str_contains cgroup_type.data fs_mntops.data = true then
        if fs_file = "" ∨ fs_file = "/" then (false, "") else (true, fs_file)
      else scan_mounts split cgroup_type cgroup_pathOUT rest

/-- Embedding of `get_cgroup_path_for_pid(cgroup_type, cgroup_pathOUT)`.  `mounts` is the
content of `/proc/self/mounts` as the sequence of lines `std::getline` yields,
or `none` when the file cannot be opened. -/
def get_cgroup_path_for_pid (split : String → Char → List String)
    (mounts : Option (List String)) (cgroup_type : String) (cgroup_pathOUT : String) :
    Bool × String :=
  match mounts with
  | none => (false, cgroup_pathOUT)
  | some lines => scan_mounts split cgroup_type cgroup_pathOUT lines

/-- A mount record matches a controller: `fs_spec == "cgroup"` and `fs_mntops`
contains the controller substring. -/
def mount_matches (split : String → Char → List String) (cgroup_type : String)
    (line : String) : Prop :=
  (split line ' ').getD 0 "" = "cgroup" ∧
    str_contains cgroup_type.data ((split line ' ').getD 3 "").data = true

instance (split : String → Char → List String) (cgroup_type line : String) :
    Decidable (mount_matches split cgroup_type line) := by
  unfold mount_matches; infer_instance

/-- The `fs_file` field (second field) of a mount record. -/
def mount_fs_file (split : String → Char → List String) (line : String) : String :=
  (split line ' ').getD 1 ""

/-! ## The environment and the state of the collector -/

/-- What the filesystem and the helpers that read it answer during one call.
`fopen path` is the content a fresh `fopen(path, "r")` stream yields, `none`
when the open fails; `stream path` is the content a stream opened on `path`
by an earlier call yields after `rewind`.  `read_integer path old` and
`read_integers_with_range_validation path lo hi old` are the helpers of
`njmon.h`: the returned `bool` and the value of their output argument on
return, `old` being its value on entry. -/
structure World where
  mounts : Option (List String)
  fopen : String → Option (List Char)
  stream : String → List Char
  file_exists : String → Bool
  read_integer : String → Nat → Bool × Nat
  read_integers_with_range_validation : String → Int → Int → Finset Int → Bool × Finset Int

/-- Embedding of `struct cpuacct_utilisation`. -/
structure cpuacct_utilisation where
  counter_nsec_user_mode : Nat
  counter_nsec_sys_mode : Nat
deriving DecidableEq

/-- The global variables of `njmon_cgroups.cpp`, the member `m_bCGroupsFound`
and the function-local statics: `num_cpus` of `read_cpuacct_line`,
`prev_values` of `cgroup_proc_cpuacct` (its slots are the indices below
`MAX_LOGICAL_CPU`) and `fp` of `cgroup_proc_memory` (`none` is the null
pointer, `some path` a stream opened on `path`). -/
structure AppState where
  m_bCGroupsFound : Int
  cgroup_memory_limit_bytes : Nat
  cgroup_memory_kernel_path : String
  cgroup_cpuacct_kernel_path : String
  cgroup_cpuset_kernel_path : String
  cgroup_cpus : Finset Int
  num_cpus : Nat
  prev_values : Nat → cpuacct_utilisation
  fp : Option String

/-- The state at program start: zero-initialised globals and statics. -/
def AppState.initial : AppState :=
  { m_bCGroupsFound := 0
    cgroup_memory_limit_bytes := 0
    cgroup_memory_kernel_path := ""
    cgroup_cpuacct_kernel_path := ""
    cgroup_cpuset_kernel_path := ""
    cgroup_cpus := ∅
    num_cpus := 0
    prev_values := fun _ => ⟨0, 0⟩
    fp := none }

/-- The calls made on the output collaborator. -/
inductive Out where
  | psection (name : String)
  | psectionend
  | psub (name : String)
  | psubend
  | plong (name : String) (value : Nat)
  | pdouble (name : String) (value : ℚ)
deriving DecidableEq

/-! ## `cgroup_init` and `cgroup_is_allowed_cpu` -/

/-- Embedding of `read_from_system_cpu_for_current_cgroup(kernelPath, cpus)`. -/
def read_from_system_cpu_for_current_cgroup (w : World) (kernelPath : String)
    (cpus : Finset Int) : Bool × Finset Int :=
  w.read_integers_with_range_validation (kernelPath ++ "/cpuset.cpus") 0 INT32_MAX cpus

/-- Embedding of `NjmonCollectorApp::cgroup_init()`. -/
def cgroup_init (split : String → Char → List String) (w : World) (s : AppState) : AppState :=
  let s := { s with m_bCGroupsFound := 0 }
  let mem := get_cgroup_path_for_pid split w.mounts "memory" s.cgroup_memory_kernel_path
  let s := { s with cgroup_memory_kernel_path := mem.2 }
  if mem.1 = false then s
  else
    let acct1 := get_cgroup_path_for_pid split w.mounts "cpu,cpuacct" s.cgroup_cpuacct_kernel_path
    let acct :=
      if acct1.1 = false then get_cgroup_path_for_pid split w.mounts "cpuacct,cpu" acct1.2
      else acct1
    let s := { s with cgroup_cpuacct_kernel_path := acct.2 }
    if acct.1 = false then s
    else
      let cset := get_cgroup_path_for_pid split w.mounts "cpuset" s.cgroup_cpuset_kernel_path
      let s := { s with cgroup_cpuset_kernel_path := cset.2 }
      if cset.1 = false then s
      else
        let lim := w.read_integer (s.cgroup_memory_kernel_path ++ "/memory.limit_in_bytes")
          s.cgroup_memory_limit_bytes
        let s := { s with cgroup_memory_limit_bytes := lim.2 }
        if lim.1 = false then s
        else
          let cpus := read_from_system_cpu_for_current_cgroup w s.cgroup_cpuset_kernel_path
            s.cgroup_cpus
          let s := { s with cgroup_cpus := cpus.2 }
          if cpus.1 = false then s
          else if s.cgroup_memory_limit_bytes = 0 then s
          else { s with m_bCGroupsFound := 1 }

/-- Embedding of `NjmonCollectorApp::cgroup_is_allowed_cpu(cpu)`; the returned `int`. -/
def cgroup_is_allowed_cpu (s : AppState) (cpu : Int) : Int :=
  if s.m_bCGroupsFound = 0 then 1
  else if cpu ∈ s.cgroup_cpus then 1 else 0

/-! ## Reading with `fgets` -/

/-- The characters one `fgets` call stores when `room` characters fit: it stops
after a newline, at the end of the content or when the room is used up. -/
def fgets_line : Nat → List Char → List Char
  | 0, _ => []
  | _ + 1, [] => []
  | room + 1, c :: cs => if c = '\n' then [c] else c :: fgets_line room cs

/-- Embedding of `fgets(line, size, fp)` on a stream whose unread content is `content`: `none`
is the `NULL` result at end of file, otherwise the characters stored in `line`
and the content left unread. -/
def fgets (size : Nat) (content : List Char) : Option (List Char × List Char) :=
  if content = [] then none
  else some (fgets_line (size - 1) content, content.drop (fgets_line (size - 1) content).length)

/-- The C string held by a buffer: its characters up to the first NUL. -/
def c_str (buf : List Char) : List Char :=
  buf.takeWhile (fun c => c ≠ '\x00')

/-! ## `read_cpuacct_line` -/

/-- Result of `read_cpuacct_line`: the returned `bool`, the static `num_cpus`
and the vector `valuesINT` on return. -/
structure ReadResult where
  ok : Bool
  num_cpus : Nat
  valuesINT : List Nat
deriving DecidableEq

/-- Embedding of `std::vector<uint64_t>::resize(n)`. -/
def vector_resize (v : List Nat) (n : Nat) : List Nat :=
  v.take n ++ List.replicate (n - v.length) 0

/-- Embedding of `read_cpuacct_line(path, valuesINT)`.  `string2int tok old` is the helper of
`njmon.h`: the returned `bool` and the value of its output argument on return.
`num_cpus` is the function's static. -/
def read_cpuacct_line (split : String → Char → List String)
    (string2int : String → Nat → Bool × Nat) (w : World) (num_cpus : Nat) (path : String)
    (valuesINT : List Nat) : ReadResult :=
  match w.fopen path with
  | none => ⟨false, num_cpus, valuesINT⟩
  | some content =>
    match fgets 1000 content with
    | none => ⟨false, num_cpus, valuesINT⟩
    | some (line, _) =>
      let values := split (String.mk (c_str line)) ' '
      if num_cpus ≠ 0 ∧ values.length ≠ num_cpus then ⟨false, 0, valuesINT⟩
      else
        let num_cpus := if num_cpus = 0 then values.length % 2 ^ 32 else num_cpus
        let resized := vector_resize valuesINT num_cpus
        ⟨true, num_cpus, (List.range num_cpus).map fun i =>
          (string2int (values.getD i "") (resized.getD i 0)).2 % 2 ^ 64⟩

/-- Modelled from the spec: `string2int`, which `njmon.h` declares and another
translation unit defines.  The counters are unsigned decimal integers: a token
made of decimal digits only is converted, any other token is refused and the
output argument keeps its value. -/
def string2int_model (tok : String) (old : Nat) : Bool × Nat :=
  if tok.data ≠ [] ∧ tok.data.all Char.isDigit then
    (true, tok.data.foldl (fun acc d => 10 * acc + (d.toNat - 48)) 0)
  else (false, old)

/-! ## `cgroup_proc_cpuacct` -/

/-- One per-core figure: the `psub("cpu<i>") ... psubend()` group.  `sys` is
absent in the combined (legacy) layout. -/
structure CpuFigure where
  cpu : Nat
  user : ℚ
  sys : Option ℚ
deriving DecidableEq

/-- The output calls of one per-core figure. -/
def CpuFigure.render (f : CpuFigure) : List Out :=
  [Out.psub ("cpu" ++ toString f.cpu), Out.pdouble "user" f.user] ++
    (match f.sys with
      | some v => [Out.pdouble "sys" v]
      | none => []) ++
    [Out.psubend]

/-- Embedding of `100 * ((double)(cur - prev)) / (elapsed_sec * 1E9)` with the `uint64_t`
subtraction. -/
def cpu_percent (cur prev : Nat) (elapsed_sec : ℚ) : ℚ :=
  100 * (((cur + 2 ^ 64 - prev) % 2 ^ 64 : Nat) : ℚ) / (elapsed_sec * 1000000000)

/-- State of a `for` loop of `cgroup_proc_cpuacct` when it stops: the array
`prev_values`, the figures emitted and whether the loop stopped at an access
to `prev_values` past its last slot (undefined behaviour in the source: the
loop is then followed no further). -/
structure LoopResult where
  prev_values : Nat → cpuacct_utilisation
  figures : List CpuFigure
  fault : Bool

/-- The `for` loop of the split user/sys layout, with `todo` iterations left
and `i` the loop variable. -/
def cpuacct_loop_split (elapsed_sec : ℚ) (print : Bool) (user sys : List Nat) :
    Nat → Nat → (Nat → cpuacct_utilisation) → LoopResult
  | 0, _, prev => ⟨prev, [], false⟩
  | todo + 1, i, prev =>
    if MAX_LOGICAL_CPU ≤ i then ⟨prev, [], true⟩
    else
      let figs : List CpuFigure :=
        if (prev i).counter_nsec_user_mode ≠ 0 ∧ (prev i).counter_nsec_sys_mode ≠ 0 ∧
            print = true ∧ elapsed_sec > MIN_ELAPSED_SECS then
          [⟨i, cpu_percent (user.getD i 0) (prev i).counter_nsec_user_mode elapsed_sec,
            some (cpu_percent (sys.getD i 0) (prev i).counter_nsec_sys_mode elapsed_sec)⟩]
        else []
      let r := cpuacct_loop_split elapsed_sec print user sys todo (i + 1)
        (Function.update prev i ⟨user.getD i 0, sys.getD i 0⟩)
      ⟨r.prev_values, figs ++ r.figures, r.fault⟩

/-- The `for` loop of the combined (legacy) layout. -/
def cpuacct_loop_combined (elapsed_sec : ℚ) (print : Bool) (user : List Nat) :
    Nat → Nat → (Nat → cpuacct_utilisation) → LoopResult
  | 0, _, prev => ⟨prev, [], false⟩
  | todo + 1, i, prev =>
    if MAX_LOGICAL_CPU ≤ i then ⟨prev, [], true⟩
    else
      let figs : List CpuFigure :=
        if (prev i).counter_nsec_user_mode ≠ 0 ∧ print = true ∧
            elapsed_sec > MIN_ELAPSED_SECS then
          [⟨i, cpu_percent (user.getD i 0) (prev i).counter_nsec_user_mode elapsed_sec, none⟩]
        else []
      let r := cpuacct_loop_combined elapsed_sec print user todo (i + 1)
        (Function.update prev i ⟨user.getD i 0, (prev i).counter_nsec_sys_mode⟩)
      ⟨r.prev_values, figs ++ r.figures, r.fault⟩

/-- Result of one call of `cgroup_proc_cpuacct`: the state on return, the
per-core figures emitted, the output calls made, and whether the call ran into
an access past the end of `prev_values`. -/
structure CpuTick where
  state : AppState
  figures : List CpuFigure
  out : List Out
  fault : Bool

/-- The output calls of a `cgroup_proc_cpuacct` call that reaches its loop. -/
def cpuacct_out (print : Bool) (l : LoopResult) : List Out :=
  (if print then [Out.psection "cgroup_cpuacct_stats"] else []) ++
    l.figures.flatMap CpuFigure.render ++
    (if print = true ∧ l.fault = false then [Out.psectionend] else [])

/-- Embedding of `NjmonCollectorApp::cgroup_proc_cpuacct(elapsed_sec, print)`. -/
def cgroup_proc_cpuacct (split : String → Char → List String)
    (string2int : String → Nat → Bool × Nat) (w : World) (s : AppState)
    (elapsed_sec : ℚ) (print : Bool) : CpuTick :=
  if s.m_bCGroupsFound = 0 then ⟨s, [], [], false⟩
  else
    let path := s.cgroup_cpuacct_kernel_path ++ "/cpuacct.usage_percpu_sys"
    if w.file_exists path = true then
      let rsys := read_cpuacct_line split string2int w s.num_cpus path []
      if rsys.ok = false then ⟨{ s with num_cpus := rsys.num_cpus }, [], [], false⟩
      else
        let ruser := read_cpuacct_line split string2int w rsys.num_cpus
          (s.cgroup_cpuacct_kernel_path ++ "/cpuacct.usage_percpu_user") []
        let s := { s with num_cpus := ruser.num_cpus }
        if ruser.ok = false then ⟨s, [], [], false⟩
        else if rsys.valuesINT.length ≠ ruser.valuesINT.length then ⟨s, [], [], false⟩
        else if rsys.valuesINT = [] then ⟨s, [], [], false⟩
        else
          let l := cpuacct_loop_split elapsed_sec print ruser.valuesINT rsys.valuesINT
            ruser.valuesINT.length 0 s.prev_values
          ⟨{ s with prev_values := l.prev_values }, l.figures, cpuacct_out print l, l.fault⟩
    else
      let ruser := read_cpuacct_line split string2int w s.num_cpus
        (s.cgroup_cpuacct_kernel_path ++ "/cpuacct.usage_percpu") []
      let s := { s with num_cpus := ruser.num_cpus }
      if ruser.ok = false then ⟨s, [], [], false⟩
      else if ruser.valuesINT = [] then ⟨s, [], [], false⟩
      else
        let l := cpuacct_loop_combined elapsed_sec print ruser.valuesINT
          ruser.valuesINT.length 0 s.prev_values
        ⟨{ s with prev_values := l.prev_values }, l.figures, cpuacct_out print l, l.fault⟩

/-- A call of `cgroup_proc_cpuacct` reads the split layout: the subsystem is
enabled, `cpuacct.usage_percpu_sys` exists, both `read_cpuacct_line` calls
return `true`, with the vectors `sys` and `user`, and the vectors pass the two
size checks. -/
def reads_split (split : String → Char → List String)
    (string2int : String → Nat → Bool × Nat) (w : World) (s : AppState)
    (user sys : List Nat) : Prop :=
  s.m_bCGroupsFound ≠ 0 ∧
  w.file_exists (s.cgroup_cpuacct_kernel_path ++ "/cpuacct.usage_percpu_sys") = true ∧
  ∃ n1 n2,
    read_cpuacct_line split string2int w s.num_cpus
      (s.cgroup_cpuacct_kernel_path ++ "/cpuacct.usage_percpu_sys") [] = ⟨true, n1, sys⟩ ∧
    read_cpuacct_line split string2int w n1
      (s.cgroup_cpuacct_kernel_path ++ "/cpuacct.usage_percpu_user") [] = ⟨true, n2, user⟩ ∧
    sys.length = user.length ∧ sys ≠ []

/-- A call of `cgroup_proc_cpuacct` reads the combined layout: the subsystem is
enabled, `cpuacct.usage_percpu_sys` does not exist, and `read_cpuacct_line`
returns `true` on `cpuacct.usage_percpu` with the non-empty vector `user`. -/
def reads_combined (split : String → Char → List String)
    (string2int : String → Nat → Bool × Nat) (w : World) (s : AppState)
    (user : List Nat) : Prop :=
  s.m_bCGroupsFound ≠ 0 ∧
  w.file_exists (s.cgroup_cpuacct_kernel_path ++ "/cpuacct.usage_percpu_sys") = false ∧
  ∃ n, read_cpuacct_line split string2int w s.num_cpus
      (s.cgroup_cpuacct_kernel_path ++ "/cpuacct.usage_percpu") [] = ⟨true, n, user⟩ ∧
    user ≠ []

/-- The number of counters `read_cpuacct_line` finds in the file at `path`:
the number of pieces of the line `fgets` reads; `none` when the file does not
open or is empty. -/
def counters_in_file (split : String → Char → List String) (w : World) (path : String) :
    Option Nat :=
  match w.fopen path with
  | none => none
  | some content =>
    match fgets 1000 content with
    | none => none
    | some (line, _) => some (split (String.mk (c_str line)) ' ').length

/-! ## `cgroup_proc_memory` -/

/-- Embedding of `isspace` in the C locale. -/
def isspace (c : Char) : Bool :=
  c = ' ' || c = '\t' || c = '\n' || c = '\x0b' || c = '\x0c' || c = '\r'

/-- The body of the `for` loop over the characters of a `memory.stat` line:
the four replacements, in the order of the source. -/
def sanitize_char (c : Char) : Char :=
  let c := if c = '(' then '_' else c
  let c := if c = ')' then ' ' else c
  let c := if c = ':' then ' ' else c
  if c = '\n' then '\x00' else c

/-- The `%s` directive of `sscanf`: white space is skipped, then the characters
up to the next white space are stored.  The result is the stored token and
the input left. -/
def scan_label (input : List Char) : List Char × List Char :=
  let s := input.dropWhile isspace
  (s.takeWhile fun c => !isspace c, s.dropWhile fun c => !isspace c)

/-- Value of a run of decimal digits. -/
def digits_value (ds : List Char) : Nat :=
  ds.foldl (fun acc d => 10 * acc + (d.toNat - 48)) 0

/-- The ` %lu` part of the `sscanf` format: white space is skipped, then an
optionally signed run of decimal digits is converted as `strtoul` does (a value
that does not fit is `ULONG_MAX`, a minus sign negates modulo `2 ^ 64`).  `none`
when no digit is found: the argument is then left as it was. -/
def scan_ulong (input : List Char) : Option Nat :=
  let s := input.dropWhile isspace
  let neg : Bool := s.head? = some '-'
  let s := if s.head? = some '-' ∨ s.head? = some '+' then s.tail else s
  let ds := s.takeWhile Char.isDigit
  if ds = [] then none
  else if 2 ^ 64 ≤ digits_value ds then some (2 ^ 64 - 1)
  else if neg = true then some ((2 ^ 64 - digits_value ds) % 2 ^ 64)
  else some (digits_value ds)

/-- The body of the `while (fgets(...))` loop of `cgroup_proc_memory` for one
line read: `none` when the line is skipped by `continue`, otherwise the
`label` that `sscanf` stores and the value it converts (`none` when the
conversion fails, `value` then keeps the `0` assigned before the call). -/
def memory_stat_record (line : List Char) : Option (List Char × Option Nat) :=
  let str := c_str line
  if str.take 6 ≠ "total_".data then none
  else
    let sanitized := c_str (str.map sanitize_char)
    some ((scan_label sanitized).1, scan_ulong (scan_label sanitized).2)

/-- State of the `while` loop of `cgroup_proc_memory` when it stops: the
`plong` calls made, the local `value`, and whether `sscanf` stored a token that
does not fit `char label[512]` (undefined behaviour in the source: the loop is
then followed no further). -/
structure MemLoop where
  out : List Out
  value : Nat
  fault : Bool

/-- The `while (fgets(line, 1000, fp) != NULL)` loop of `cgroup_proc_memory` on
the unread content of the stream.  Every `fgets` call that does not return
`NULL` consumes a character, so `fuel` at least the length of the content
lets the loop run to the end of the file. -/
def memory_stat_loop : Nat → Nat → List Char → MemLoop
  | 0, value, _ => ⟨[], value, false⟩
  | fuel + 1, value, content =>
    match fgets 1000 content with
    | none => ⟨[], value, false⟩
    | some (line, rest) =>
      match memory_stat_record line with
      | none => memory_stat_loop fuel value rest
      | some (label, v) =>
        if 512 ≤ label.length then ⟨[], 0, true⟩
        else
          let r := memory_stat_loop fuel (v.getD 0) rest
          ⟨Out.plong (String.mk label) (v.getD 0) :: r.out, r.value, r.fault⟩

/-- The lines that successive `fgets(line, 1000, fp)` calls read from the
content of a stream. -/
def fgets_records : Nat → List Char → List (List Char)
  | 0, _ => []
  | fuel + 1, content =>
    match fgets 1000 content with
    | none => []
    | some (line, rest) => line :: fgets_records fuel rest

/-- Result of one call of `cgroup_proc_memory`: the state on return, the output
calls made, and whether the call overran `label`. -/
structure MemTick where
  state : AppState
  out : List Out
  fault : Bool

/-- Embedding of `NjmonCollectorApp::cgroup_proc_memory()`.  `value0` is the indeterminate
content of the local `value` on entry. -/
def cgroup_proc_memory (w : World) (s : AppState) (value0 : Nat) : MemTick :=
  if s.m_bCGroupsFound = 0 then ⟨s, [], false⟩
  else
    let opened : Option (String × List Char) :=
      match s.fp with
      | none =>
        (w.fopen (s.cgroup_memory_kernel_path ++ "/memory.stat")).map fun content =>
          (s.cgroup_memory_kernel_path ++ "/memory.stat", content)
      | some p => some (p, w.stream p)
    match opened with
    | none => ⟨{ s with fp := none }, [], false⟩
    | some (p, content) =>
      let l := memory_stat_loop content.length value0 content
      if l.fault = true then
        ⟨{ s with fp := some p }, Out.psection "cgroup_memory_stats" :: l.out, true⟩
      else
        let fc := w.read_integer (s.cgroup_memory_kernel_path ++ "/memory.failcnt") l.value
        ⟨{ s with fp := some p },
          Out.psection "cgroup_memory_stats" :: l.out ++
            (if fc.1 = true then [Out.plong "failcnt" fc.2] else []) ++ [Out.psectionend],
          false⟩

/-! ## Concrete environments

Small filesystems and states on which the functions above are evaluated. -/

/-- The environment in which exactly the listed files exist, with the listed
contents; there is no mount table and the integer helpers find nothing. -/
def world_of_files (files : List (String × String)) : World :=
  { mounts := none
    fopen := fun path => (files.lookup path).map String.data
    stream := fun path => ((files.lookup path).map String.data).getD []
    file_exists := fun path => (files.lookup path).isSome
    read_integer := fun _ old => (false, old)
    read_integers_with_range_validation := fun _ _ _ old => (false, old) }

/-- The state after a successful `cgroup_init` that found the three controllers
mounted at `/m`, `/c` and `/s`; the statics still have their initial values. -/
def enabled_state : AppState :=
  { AppState.initial with
    m_bCGroupsFound := 1
    cgroup_memory_limit_bytes := 1073741824
    cgroup_memory_kernel_path := "/m"
    cgroup_cpuacct_kernel_path := "/c"
    cgroup_cpuset_kernel_path := "/s"
    cgroup_cpus := {0, 1} }

/-- Environment of the first call in the instance of C5: one core, `sys = 5`, `user = 3`. -/
def c5_world1 : World :=
  world_of_files [("/c/cpuacct.usage_percpu_sys", "5"), ("/c/cpuacct.usage_percpu_user", "3")]

/-- Environment of the second call in the instance of C5: `sys = 6`, `user = 1000000003`. -/
def c5_world2 : World :=
  world_of_files
    [("/c/cpuacct.usage_percpu_sys", "6"), ("/c/cpuacct.usage_percpu_user", "1000000003")]

/-- Environment of the first call in the counterexample to C5: `sys = 5`, `user = 0`. -/
def c5_cex_world1 : World :=
  world_of_files [("/c/cpuacct.usage_percpu_sys", "5"), ("/c/cpuacct.usage_percpu_user", "0")]

/-- Environment of the second call in the counterexample to C5: `sys = 6`,
`user = 1000000000`. -/
def c5_cex_world2 : World :=
  world_of_files
    [("/c/cpuacct.usage_percpu_sys", "6"), ("/c/cpuacct.usage_percpu_user", "1000000000")]

/-- Split layout, two cores read below the threshold: `sys = 5 7`, `user = 3 9`. -/
def c6_world_split : World :=
  world_of_files [("/c/cpuacct.usage_percpu_sys", "5 7"), ("/c/cpuacct.usage_percpu_user", "3 9")]

/-- Combined layout with four cores: `cpuacct.usage_percpu` is `5 6 7 8`. -/
def c7_world1 : World :=
  world_of_files [("/c/cpuacct.usage_percpu", "5 6 7 8")]

/-- Combined layout, the counters file has grown to eight values. -/
def c7_world2 : World :=
  world_of_files [("/c/cpuacct.usage_percpu", "6 7 8 9 1 1 1 1")]

/-- Combined layout, eight values again on the following call. -/
def c7_world3 : World :=
  world_of_files [("/c/cpuacct.usage_percpu", "7 8 9 10 2 2 2 2")]

/-- The state after one call in `c7_world1`. -/
def c7_state1 : AppState :=
  (cgroup_proc_cpuacct split_string_in_array_model string2int_model c7_world1
    enabled_state 1 true).state

/-- The state after the call in `c7_world2` that follows. -/
def c7_state2 : AppState :=
  (cgroup_proc_cpuacct split_string_in_array_model string2int_model c7_world2
    c7_state1 1 true).state

/-- Combined layout on a machine with 300 logical CPUs none of which has run
the group yet: `cpuacct.usage_percpu` is 300 times `0 ` and a newline (601
characters, within the 999 that `fgets(line, 1000, fp)` reads). -/
def c10_world : World :=
  world_of_files [("/c/cpuacct.usage_percpu", String.join (List.replicate 300 "0 ") ++ "\n")]

/-- The content of `memory.stat` that a call of `cgroup_proc_memory` reads:
through a fresh `fopen` when `fp` is null, through the stream `fp` holds
otherwise; `none` when the `fopen` fails. -/
def memory_stat_content (w : World) (s : AppState) : Option (List Char) :=
  match s.fp with
  | none => w.fopen (s.cgroup_memory_kernel_path ++ "/memory.stat")
  | some p => some (w.stream p)

/-- A character that the scan of a `memory.stat` line leaves alone and keeps in
the label: not white space, not NUL, none of `(`, `)`, `:`. -/
def plain_char (c : Char) : Bool :=
  !isspace c && c != '\x00' && c != '(' && c != ')' && c != ':'

/-- The line `total_<name> <value>` of `memory.stat`, newline included. -/
def stat_line (name : List Char) (value : Nat) : List Char :=
  "total_".data ++ name ++ ' ' :: (Nat.repr value).data ++ ['\n']

/-- No file can be opened. -/
def c9_world1 : World := world_of_files []

/-- The file `memory.stat` has become readable. -/
def c9_world2 : World := world_of_files [("/m/memory.stat", "total_cache 1048576\n")]

/-- A `memory.stat` with one line that is not a total and the line
`total_cache 1048576`. -/
def c8_world : World :=
  world_of_files [("/m/memory.stat", "cache 4096\ntotal_cache 1048576\n")]

/-- A mount table with the three controllers, the `cpuset` record last. -/
def c1_mounts : List String :=
  ["proc /proc proc rw,nosuid,nodev,noexec,relatime 0 0",
   "cgroup /sys/fs/cgroup/memory cgroup rw,nosuid,nodev,noexec,relatime,memory 0 0",
   "cgroup /sys/fs/cgroup/cpu,cpuacct cgroup rw,nosuid,nodev,noexec,relatime,cpu,cpuacct 0 0",
   "cgroup /sys/fs/cgroup/cpuset cgroup rw,nosuid,nodev,noexec,relatime,cpuset 0 0"]

/-- A mount table whose first record has too few fields. -/
def c2_mounts_bad_first : List String :=
  ["rootfs / rootfs",
   "cgroup /sys/fs/cgroup/cpuset cgroup rw,nosuid,nodev,noexec,relatime,cpuset 0 0"]

/-- A mount table whose malformed record comes after the matching record. -/
def c2_mounts_bad_last : List String :=
  ["cgroup /sys/fs/cgroup/cpuset cgroup rw,nosuid,nodev,noexec,relatime,cpuset 0 0",
   "rootfs / rootfs"]

/-- An environment in which `cgroup_init` finds the three controllers of
`c1_mounts`, a memory limit of 1 GiB and the CPU set `{0, 1, 3}`. -/
def init_world : World :=
  { mounts := some c1_mounts
    fopen := fun _ => none
    stream := fun _ => []
    file_exists := fun _ => false
    read_integer := fun path old =>
      if path = "/sys/fs/cgroup/memory/memory.limit_in_bytes" then (true, 1073741824)
      else (false, old)
    read_integers_with_range_validation := fun path _ _ old =>
      if path = "/sys/fs/cgroup/cpuset/cpuset.cpus" then (true, {0, 1, 3}) else (false, old) }

/-! ## Properties of `get_cgroup_path_for_pid` -/

theorem scan_mounts_cons (split : String → Char → List String) (ty out line : String)
    (rest : List String) :
    scan_mounts split ty out (line :: rest) =
      if (split line ' ').length ≠ 6 then (false, out)
      else if mount_matches split ty line then
        (if mount_fs_file split line = "" ∨ mount_fs_file split line = "/" then (false, "")
         else (true, mount_fs_file split line))
      else scan_mounts split ty out rest := rfl

theorem scan_mounts_first_match (split : String → Char → List String) (ty out : String) :
    ∀ (lines : List String) (k : Nat) (line : String),
      lines[k]? = some line →
      (∀ j l, j ≤ k → lines[j]? = some l → (split l ' ').length = 6) →
      mount_matches split ty line →
      (∀ j l, j < k → lines[j]? = some l → ¬ mount_matches split ty l) →
      scan_mounts split ty out lines =
        if mount_fs_file split line = "" ∨ mount_fs_file split line = "/" then (false, "")
        else (true, mount_fs_file split line) := by
  intro lines
  induction lines with
  | nil => intro k line hk; simp at hk
  | cons hd tl ih =>
    intro k line hk h6 hm hfirst
    have h : ¬ (split hd ' ').length ≠ 6 := by
      have := h6 0 hd (Nat.zero_le _) (by simp)
      simp [this]
    cases k with
    | zero =>
      simp at hk
      subst hk
      rw [scan_mounts_cons, if_neg h, if_pos hm]
    | succ k =>
      have hn : ¬ mount_matches split ty hd := hfirst 0 hd (Nat.succ_pos k) (by simp)
      have hk2 : tl[k]? = some line := by simpa using hk
      rw [scan_mounts_cons, if_neg h, if_neg hn]
      exact ih k line hk2
        (fun j l hj hl => h6 (j + 1) l (Nat.succ_le_succ hj) (by simpa using hl)) hm
        (fun j l hj hl => hfirst (j + 1) l (Nat.succ_lt_succ hj) (by simpa using hl))

theorem scan_mounts_malformed (split : String → Char → List String) (ty out : String) :
    ∀ (lines : List String) (k : Nat) (bad : String),
      lines[k]? = some bad →
      (split bad ' ').length ≠ 6 →
      (∀ j l, j < k → lines[j]? = some l → (split l ' ').length = 6 →
        ¬ mount_matches split ty l) →
      (scan_mounts split ty out lines).1 = false := by
  intro lines
  induction lines with
  | nil => intro k bad hk; simp at hk
  | cons hd tl ih =>
    intro k bad hk hbad hfirst
    cases k with
    | zero =>
      simp at hk
      subst hk
      rw [scan_mounts_cons, if_pos hbad]
    | succ k =>
      have hk2 : tl[k]? = some bad := by simpa using hk
      have hrec := ih k bad hk2 hbad
        (fun j l hj hl => hfirst (j + 1) l (Nat.succ_lt_succ hj) (by simpa using hl))
      by_cases h : (split hd ' ').length ≠ 6
      · rw [scan_mounts_cons, if_pos h]
      · have hn : ¬ mount_matches split ty hd :=
          hfirst 0 hd (Nat.succ_pos k) (by simp) (by simpa using h)
        rw [scan_mounts_cons, if_neg h, if_neg hn]
        exact hrec

theorem cgroup_init_found_cases (split : String → Char → List String) (w : World)
    (s : AppState) :
    (cgroup_init split w s).m_bCGroupsFound = 0 ∨ (cgroup_init split w s).m_bCGroupsFound = 1 := by
  unfold cgroup_init
  simp only []
  split_ifs <;> simp

theorem cgroup_init_enabled_iff (split : String → Char → List String) (w : World)
    (s : AppState) :
    (cgroup_init split w s).m_bCGroupsFound = 1 ↔
      ∃ mem acct cset lim cpus,
        get_cgroup_path_for_pid split w.mounts "memory" s.cgroup_memory_kernel_path
          = (true, mem) ∧
        (get_cgroup_path_for_pid split w.mounts "cpu,cpuacct" s.cgroup_cpuacct_kernel_path
            = (true, acct) ∨
          ∃ tmp, get_cgroup_path_for_pid split w.mounts "cpu,cpuacct"
              s.cgroup_cpuacct_kernel_path = (false, tmp) ∧
            get_cgroup_path_for_pid split w.mounts "cpuacct,cpu" tmp = (true, acct)) ∧
        get_cgroup_path_for_pid split w.mounts "cpuset" s.cgroup_cpuset_kernel_path
          = (true, cset) ∧
        w.read_integer (mem ++ "/memory.limit_in_bytes") s.cgroup_memory_limit_bytes
          = (true, lim) ∧
        lim ≠ 0 ∧
        w.read_integers_with_range_validation (cset ++ "/cpuset.cpus") 0 INT32_MAX
          s.cgroup_cpus = (true, cpus) := by
  unfold cgroup_init read_from_system_cpu_for_current_cgroup
  simp only []
  rcases h1 : get_cgroup_path_for_pid split w.mounts "memory" s.cgroup_memory_kernel_path
    with ⟨b1, p1⟩
  rcases h2 : get_cgroup_path_for_pid split w.mounts "cpu,cpuacct"
    s.cgroup_cpuacct_kernel_path with ⟨b2, p2⟩
  rcases h2b : get_cgroup_path_for_pid split w.mounts "cpuacct,cpu" p2 with ⟨b2b, p2b⟩
  rcases h3 : get_cgroup_path_for_pid split w.mounts "cpuset" s.cgroup_cpuset_kernel_path
    with ⟨b3, p3⟩
  rcases h4 : w.read_integer (p1 ++ "/memory.limit_in_bytes") s.cgroup_memory_limit_bytes
    with ⟨b4, lim⟩
  cases b1
  · simp
  · cases b2
    · cases b2b
      · simp [h2b]
      · cases b3
        · simp [h2b]
        · rcases h5 : w.read_integers_with_range_validation (p3 ++ "/cpuset.cpus") 0 INT32_MAX
            s.cgroup_cpus with ⟨b5, cpus⟩
          cases b4 <;> cases b5 <;> by_cases hl : lim = 0 <;> simp [h2b, h4, h5, hl]
    · cases b3
      · simp
      · rcases h5 : w.read_integers_with_range_validation (p3 ++ "/cpuset.cpus") 0 INT32_MAX
          s.cgroup_cpus with ⟨b5, cpus⟩
        cases b4 <;> cases b5 <;> by_cases hl : lim = 0 <;> simp [h4, h5, hl]

/-! ## Properties of the loops of `cgroup_proc_cpuacct` -/

theorem loop_split_figures (e : ℚ) (p : Bool) (user sys : List Nat) :
    ∀ (todo i : Nat) (prev : Nat → cpuacct_utilisation) (f : CpuFigure),
      f ∈ (cpuacct_loop_split e p user sys todo i prev).figures ↔
        (i ≤ f.cpu ∧ f.cpu < i + todo ∧ f.cpu < MAX_LOGICAL_CPU ∧
          (prev f.cpu).counter_nsec_user_mode ≠ 0 ∧ (prev f.cpu).counter_nsec_sys_mode ≠ 0 ∧
          p = true ∧ e > MIN_ELAPSED_SECS ∧
          f = ⟨f.cpu, cpu_percent (user.getD f.cpu 0) (prev f.cpu).counter_nsec_user_mode e,
            some (cpu_percent (sys.getD f.cpu 0) (prev f.cpu).counter_nsec_sys_mode e)⟩) := by
  intro todo
  induction todo with
  | zero =>
    intro i prev f
    simp only [cpuacct_loop_split, List.not_mem_nil, false_iff]
    rintro ⟨h1, h2, -⟩
    omega
  | succ n ih =>
    intro i prev f
    rw [cpuacct_loop_split]
    by_cases hi : MAX_LOGICAL_CPU ≤ i
    · rw [if_pos hi]
      simp only [List.not_mem_nil, false_iff]
      rintro ⟨h1, -, h3, -⟩
      omega
    · rw [if_neg hi]
      simp only [List.mem_append]
      rw [ih (i + 1) _ f]
      constructor
      · rintro (h | ⟨h1, h2, h3, h4⟩)
        · split_ifs at h with hc
          · simp only [List.mem_singleton] at h
            have hcpu : f.cpu = i := by rw [h]
            rw [hcpu]
            refine ⟨le_refl _, by omega, by omega, hc.1, hc.2.1, hc.2.2.1, hc.2.2.2, ?_⟩
            exact h
          · simp at h
        · have hne : f.cpu ≠ i := by omega
          rw [Function.update_noteq hne] at h4
          exact ⟨by omega, by omega, h3, h4⟩
      · rintro ⟨h1, h2, h3, h4, h5, h6, h7, h8⟩
        by_cases hcpu : f.cpu = i
        · left
          rw [hcpu] at h4 h5 h8
          rw [if_pos ⟨h4, h5, h6, h7⟩]
          simp only [List.mem_singleton]
          exact h8
        · right
          rw [Function.update_noteq hcpu]
          exact ⟨by omega, by omega, h3, h4, h5, h6, h7, h8⟩

theorem loop_combined_figures (e : ℚ) (p : Bool) (user : List Nat) :
    ∀ (todo i : Nat) (prev : Nat → cpuacct_utilisation) (f : CpuFigure),
      f ∈ (cpuacct_loop_combined e p user todo i prev).figures ↔
        (i ≤ f.cpu ∧ f.cpu < i + todo ∧ f.cpu < MAX_LOGICAL_CPU ∧
          (prev f.cpu).counter_nsec_user_mode ≠ 0 ∧ p = true ∧ e > MIN_ELAPSED_SECS ∧
          f = ⟨f.cpu, cpu_percent (user.getD f.cpu 0) (prev f.cpu).counter_nsec_user_mode e,
            none⟩) := by
  intro todo
  induction todo with
  | zero =>
    intro i prev f
    simp only [cpuacct_loop_combined, List.not_mem_nil, false_iff]
    rintro ⟨h1, h2, -⟩
    omega
  | succ n ih =>
    intro i prev f
    rw [cpuacct_loop_combined]
    by_cases hi : MAX_LOGICAL_CPU ≤ i
    · rw [if_pos hi]
      simp only [List.not_mem_nil, false_iff]
      rintro ⟨h1, -, h3, -⟩
      omega
    · rw [if_neg hi]
      simp only [List.mem_append]
      rw [ih (i + 1) _ f]
      constructor
      · rintro (h | ⟨h1, h2, h3, h4⟩)
        · split_ifs at h with hc
          · simp only [List.mem_singleton] at h
            have hcpu : f.cpu = i := by rw [h]
            rw [hcpu]
            exact ⟨le_refl _, by omega, by omega, hc.1, hc.2.1, hc.2.2, h⟩
          · simp at h
        · have hne : f.cpu ≠ i := by omega
          rw [Function.update_noteq hne] at h4
          exact ⟨by omega, by omega, h3, h4⟩
      · rintro ⟨h1, h2, h3, h4, h6, h7, h8⟩
        by_cases hcpu : f.cpu = i
        · left
          rw [hcpu] at h4 h8
          rw [if_pos ⟨h4, h6, h7⟩]
          simp only [List.mem_singleton]
          exact h8
        · right
          rw [Function.update_noteq hcpu]
          exact ⟨by omega, by omega, h3, h4, h6, h7, h8⟩

theorem loop_split_prev (e : ℚ) (p : Bool) (user sys : List Nat) :
    ∀ (todo i : Nat) (prev : Nat → cpuacct_utilisation) (j : Nat),
      (cpuacct_loop_split e p user sys todo i prev).prev_values j =
        if i ≤ j ∧ j < i + todo ∧ j < MAX_LOGICAL_CPU then ⟨user.getD j 0, sys.getD j 0⟩
        else prev j := by
  intro todo
  induction todo with
  | zero =>
    intro i prev j
    rw [cpuacct_loop_split, if_neg (by omega)]
  | succ n ih =>
    intro i prev j
    rw [cpuacct_loop_split]
    by_cases hi : MAX_LOGICAL_CPU ≤ i
    · rw [if_pos hi, if_neg (by omega)]
    · rw [if_neg hi]
      simp only []
      rw [ih (i + 1) _ j]
      by_cases hj : j = i
      · subst hj
        rw [if_neg (by omega), if_pos (by omega), Function.update_same]
      · rw [Function.update_noteq hj]
        by_cases hc : i + 1 ≤ j ∧ j < i + 1 + n ∧ j < MAX_LOGICAL_CPU
        · rw [if_pos hc, if_pos (by omega)]
        · rw [if_neg hc, if_neg (by omega)]

theorem loop_combined_prev (e : ℚ) (p : Bool) (user : List Nat) :
    ∀ (todo i : Nat) (prev : Nat → cpuacct_utilisation) (j : Nat),
      (cpuacct_loop_combined e p user todo i prev).prev_values j =
        if i ≤ j ∧ j < i + todo ∧ j < MAX_LOGICAL_CPU then
          ⟨user.getD j 0, (prev j).counter_nsec_sys_mode⟩
        else prev j := by
  intro todo
  induction todo with
  | zero =>
    intro i prev j
    rw [cpuacct_loop_combined, if_neg (by omega)]
  | succ n ih =>
    intro i prev j
    rw [cpuacct_loop_combined]
    by_cases hi : MAX_LOGICAL_CPU ≤ i
    · rw [if_pos hi, if_neg (by omega)]
    · rw [if_neg hi]
      simp only []
      rw [ih (i + 1) _ j]
      by_cases hj : j = i
      · subst hj
        rw [if_neg (by omega), if_pos (by omega), Function.update_same]
      · rw [Function.update_noteq hj]
        by_cases hc : i + 1 ≤ j ∧ j < i + 1 + n ∧ j < MAX_LOGICAL_CPU
        · rw [if_pos hc, if_pos (by omega)]
        · rw [if_neg hc, if_neg (by omega)]

theorem loop_split_fault (e : ℚ) (p : Bool) (user sys : List Nat) :
    ∀ (todo i : Nat) (prev : Nat → cpuacct_utilisation),
      (cpuacct_loop_split e p user sys todo i prev).fault = true ↔
        0 < todo ∧ MAX_LOGICAL_CPU < i + todo := by
  intro todo
  induction todo with
  | zero => intro i prev; simp [cpuacct_loop_split]
  | succ n ih =>
    intro i prev
    rw [cpuacct_loop_split]
    by_cases hi : MAX_LOGICAL_CPU ≤ i
    · rw [if_pos hi]
      simp only [true_iff]
      omega
    · rw [if_neg hi]
      simp only []
      rw [ih (i + 1) _]
      omega

theorem loop_combined_fault (e : ℚ) (p : Bool) (user : List Nat) :
    ∀ (todo i : Nat) (prev : Nat → cpuacct_utilisation),
      (cpuacct_loop_combined e p user todo i prev).fault = true ↔
        0 < todo ∧ MAX_LOGICAL_CPU < i + todo := by
  intro todo
  induction todo with
  | zero => intro i prev; simp [cpuacct_loop_combined]
  | succ n ih =>
    intro i prev
    rw [cpuacct_loop_combined]
    by_cases hi : MAX_LOGICAL_CPU ≤ i
    · rw [if_pos hi]
      simp only [true_iff]
      omega
    · rw [if_neg hi]
      simp only []
      rw [ih (i + 1) _]
      omega

/-! ## Properties of `read_cpuacct_line` and of a call of `cgroup_proc_cpuacct` -/

theorem read_cpuacct_line_fopen_none (split : String → Char → List String)
    (s2i : String → Nat → Bool × Nat) (w : World) (n : Nat) (path : String) (v : List Nat)
    (hf : w.fopen path = none) :
    read_cpuacct_line split s2i w n path v = ⟨false, n, v⟩ := by
  unfold read_cpuacct_line
  rw [hf]

theorem read_cpuacct_line_fgets_none (split : String → Char → List String)
    (s2i : String → Nat → Bool × Nat) (w : World) (n : Nat) (path : String) (v : List Nat)
    (content : List Char) (hf : w.fopen path = some content) (hg : fgets 1000 content = none) :
    read_cpuacct_line split s2i w n path v = ⟨false, n, v⟩ := by
  unfold read_cpuacct_line
  rw [hf]
  simp only []
  rw [hg]

theorem read_cpuacct_line_fgets_some (split : String → Char → List String)
    (s2i : String → Nat → Bool × Nat) (w : World) (n : Nat) (path : String) (v : List Nat)
    (content line rest : List Char) (hf : w.fopen path = some content)
    (hg : fgets 1000 content = some (line, rest)) :
    read_cpuacct_line split s2i w n path v =
      if n ≠ 0 ∧ (split (String.mk (c_str line)) ' ').length ≠ n then ⟨false, 0, v⟩
      else
        ⟨true, if n = 0 then (split (String.mk (c_str line)) ' ').length % 2 ^ 32 else n,
          (List.range
            (if n = 0 then (split (String.mk (c_str line)) ' ').length % 2 ^ 32 else n)).map
            fun i => (s2i ((split (String.mk (c_str line)) ' ').getD i "")
              ((vector_resize v
                (if n = 0 then (split (String.mk (c_str line)) ' ').length % 2 ^ 32
                  else n)).getD i 0)).2 % 2 ^ 64⟩ := by
  unfold read_cpuacct_line
  rw [hf]
  simp only []
  rw [hg]

theorem read_cpuacct_line_shape (split : String → Char → List String)
    (s2i : String → Nat → Bool × Nat) (w : World) (n : Nat) (path : String) (v : List Nat)
    (h : (read_cpuacct_line split s2i w n path v).ok = true) :
    ∃ g : Nat → Nat, (read_cpuacct_line split s2i w n path v).valuesINT =
      (List.range (read_cpuacct_line split s2i w n path v).num_cpus).map fun i =>
        g i % 2 ^ 64 := by
  rcases hf : w.fopen path with _ | content
  · rw [read_cpuacct_line_fopen_none split s2i w n path v hf] at h
    simp at h
  · rcases hg : fgets 1000 content with _ | ⟨line, rest⟩
    · rw [read_cpuacct_line_fgets_none split s2i w n path v content hf hg] at h
      simp at h
    · rw [read_cpuacct_line_fgets_some split s2i w n path v content line rest hf hg] at h ⊢
      by_cases hc : n ≠ 0 ∧ (split (String.mk (c_str line)) ' ').length ≠ n
      · rw [if_pos hc] at h; simp at h
      · rw [if_neg hc]
        exact ⟨_, rfl⟩

theorem read_cpuacct_line_lt (split : String → Char → List String)
    (s2i : String → Nat → Bool × Nat) (w : World) (n : Nat) (path : String) (v : List Nat)
    (n' : Nat) (vals : List Nat)
    (h : read_cpuacct_line split s2i w n path v = ⟨true, n', vals⟩) (i : Nat) :
    vals.getD i 0 < 2 ^ 64 := by
  obtain ⟨g, hg⟩ := read_cpuacct_line_shape split s2i w n path v (by rw [h])
  rw [h] at hg
  simp only [] at hg
  rw [hg]
  by_cases hi : i < n'
  · rw [List.getD_eq_getElem?_getD, List.getElem?_map, List.getElem?_range hi]
    simp only [Option.map_some', Option.getD_some]
    exact Nat.mod_lt _ (by norm_num)
  · rw [List.getD_eq_default]
    · norm_num
    · simp only [List.length_map, List.length_range]
      omega

theorem read_cpuacct_line_mismatch (split : String → Char → List String)
    (s2i : String → Nat → Bool × Nat) (w : World) (n : Nat) (path : String) (v : List Nat)
    (k : Nat) (hn : n ≠ 0) (hk : counters_in_file split w path = some k) (hne : k ≠ n) :
    read_cpuacct_line split s2i w n path v = ⟨false, 0, v⟩ := by
  unfold counters_in_file at hk
  rcases hf : w.fopen path with _ | content
  · rw [hf] at hk; simp at hk
  · rw [hf] at hk
    simp only [] at hk
    rcases hg : fgets 1000 content with _ | ⟨line, rest⟩
    · rw [hg] at hk; simp at hk
    · rw [hg] at hk
      simp only [Option.some.injEq] at hk
      rw [read_cpuacct_line_fgets_some split s2i w n path v content line rest hf hg,
        if_pos ⟨hn, by rw [hk]; exact hne⟩]

theorem tick_split (split : String → Char → List String) (s2i : String → Nat → Bool × Nat)
    (w : World) (s : AppState) (e : ℚ) (p : Bool) (user sys : List Nat)
    (h : reads_split split s2i w s user sys) :
    (cgroup_proc_cpuacct split s2i w s e p).figures =
        (cpuacct_loop_split e p user sys user.length 0 s.prev_values).figures ∧
      (cgroup_proc_cpuacct split s2i w s e p).state.prev_values =
        (cpuacct_loop_split e p user sys user.length 0 s.prev_values).prev_values ∧
      (cgroup_proc_cpuacct split s2i w s e p).fault =
        (cpuacct_loop_split e p user sys user.length 0 s.prev_values).fault ∧
      (cgroup_proc_cpuacct split s2i w s e p).out =
        cpuacct_out p (cpuacct_loop_split e p user sys user.length 0 s.prev_values) ∧
      (cgroup_proc_cpuacct split s2i w s e p).state.m_bCGroupsFound = s.m_bCGroupsFound ∧
      (cgroup_proc_cpuacct split s2i w s e p).state.cgroup_cpuacct_kernel_path =
        s.cgroup_cpuacct_kernel_path := by
  obtain ⟨hm, hex, n1, n2, h1, h2, hlen, hne⟩ := h
  unfold cgroup_proc_cpuacct
  rw [if_neg hm]
  simp only []
  rw [if_pos hex, h1]
  simp only [Bool.true_eq_false, if_false]
  rw [h2]
  simp only [Bool.true_eq_false, if_false]
  rw [if_neg (by simpa using hlen), if_neg hne]
  simp

theorem tick_combined (split : String → Char → List String) (s2i : String → Nat → Bool × Nat)
    (w : World) (s : AppState) (e : ℚ) (p : Bool) (user : List Nat)
    (h : reads_combined split s2i w s user) :
    (cgroup_proc_cpuacct split s2i w s e p).figures =
        (cpuacct_loop_combined e p user user.length 0 s.prev_values).figures ∧
      (cgroup_proc_cpuacct split s2i w s e p).state.prev_values =
        (cpuacct_loop_combined e p user user.length 0 s.prev_values).prev_values ∧
      (cgroup_proc_cpuacct split s2i w s e p).fault =
        (cpuacct_loop_combined e p user user.length 0 s.prev_values).fault ∧
      (cgroup_proc_cpuacct split s2i w s e p).out =
        cpuacct_out p (cpuacct_loop_combined e p user user.length 0 s.prev_values) ∧
      (cgroup_proc_cpuacct split s2i w s e p).state.m_bCGroupsFound = s.m_bCGroupsFound ∧
      (cgroup_proc_cpuacct split s2i w s e p).state.cgroup_cpuacct_kernel_path =
        s.cgroup_cpuacct_kernel_path := by
  obtain ⟨hm, hex, n, h1, hne⟩ := h
  unfold cgroup_proc_cpuacct
  rw [if_neg hm]
  simp only []
  rw [if_neg (by simp [hex]), h1]
  simp only [Bool.true_eq_false, if_false]
  rw [if_neg hne]
  simp

theorem tick_cases (split : String → Char → List String) (s2i : String → Nat → Bool × Nat)
    (w : World) (s : AppState) (e : ℚ) (p : Bool) :
    ((cgroup_proc_cpuacct split s2i w s e p).figures = [] ∧
        (cgroup_proc_cpuacct split s2i w s e p).out = [] ∧
        (cgroup_proc_cpuacct split s2i w s e p).state.prev_values = s.prev_values ∧
        (cgroup_proc_cpuacct split s2i w s e p).fault = false) ∨
      (∃ user sys, reads_split split s2i w s user sys) ∨
      (∃ user, reads_combined split s2i w s user) := by
  by_cases hm : s.m_bCGroupsFound = 0
  · left
    unfold cgroup_proc_cpuacct
    rw [if_pos hm]
    exact ⟨rfl, rfl, rfl, rfl⟩
  · by_cases hex : w.file_exists (s.cgroup_cpuacct_kernel_path ++ "/cpuacct.usage_percpu_sys")
      = true
    · rcases h1 : read_cpuacct_line split s2i w s.num_cpus
        (s.cgroup_cpuacct_kernel_path ++ "/cpuacct.usage_percpu_sys") [] with ⟨ok1, n1, sys⟩
      rcases h2 : read_cpuacct_line split s2i w n1
        (s.cgroup_cpuacct_kernel_path ++ "/cpuacct.usage_percpu_user") [] with ⟨ok2, n2, user⟩
      by_cases hgood : ok1 = true ∧ ok2 = true ∧ sys.length = user.length ∧ sys ≠ []
      · right; left
        obtain ⟨rfl, rfl, hl, hne⟩ := hgood
        exact ⟨user, sys, hm, hex, n1, n2, h1, h2, hl, hne⟩
      · left
        unfold cgroup_proc_cpuacct
        rw [if_neg hm]
        simp only []
        rw [if_pos hex, h1]
        simp only []
        cases ok1
        · simp
        · rw [h2]
          cases ok2
          · simp
          · simp only [Bool.true_eq_false, if_false]
            by_cases hl : sys.length = user.length
            · by_cases hne : sys = []
              · simp [hne]
              · exact absurd ⟨rfl, rfl, hl, hne⟩ hgood
            · simp [hl]
    · rcases h1 : read_cpuacct_line split s2i w s.num_cpus
        (s.cgroup_cpuacct_kernel_path ++ "/cpuacct.usage_percpu") [] with ⟨ok1, n1, user⟩
      by_cases hgood : ok1 = true ∧ user ≠ []
      · right; right
        obtain ⟨rfl, hne⟩ := hgood
        exact ⟨user, hm, by simpa using hex, n1, h1, hne⟩
      · left
        unfold cgroup_proc_cpuacct
        rw [if_neg hm]
        simp only []
        rw [if_neg hex, h1]
        simp only []
        cases ok1
        · simp
        · by_cases hne : user = []
          · simp [hne]
          · exact absurd ⟨rfl, hne⟩ hgood

theorem render_infix_out (p : Bool) (l : LoopResult) (f : CpuFigure) (h : f ∈ l.figures) :
    f.render <:+: cpuacct_out p l := by
  obtain ⟨a, b, hab⟩ := List.append_of_mem h
  unfold cpuacct_out
  rw [hab]
  refine ⟨(if p then [Out.psection "cgroup_cpuacct_stats"] else []) ++ a.flatMap CpuFigure.render,
    b.flatMap CpuFigure.render ++
      (if p = true ∧ l.fault = false then [Out.psectionend] else []), ?_⟩
  simp [List.flatMap_append, List.flatMap_cons, List.append_assoc]

theorem cpu_percent_of_le (cur prev : Nat) (hc : cur < 2 ^ 64) (hle : prev ≤ cur) :
    cpu_percent cur prev 1 = 100 * ((cur : ℚ) - (prev : ℚ)) / 1000000000 := by
  unfold cpu_percent
  have h : (cur + 2 ^ 64 - prev) % 2 ^ 64 = cur - prev := by
    have : cur + 2 ^ 64 - prev = (cur - prev) + 2 ^ 64 := by omega
    rw [this, Nat.add_mod_right, Nat.mod_eq_of_lt (by omega)]
  rw [h, Nat.cast_sub hle, one_mul]

/-! ## Claims on `cgroup_proc_cpuacct` -/

/-- C5 (as amended).  Two consecutive calls read the split layout, `(U0, S0)` then
`(U1, S1)`.  For a core `i` below `MAX_LOGICAL_CPU` whose first counters are both
non-zero and whose counters did not decrease, the second call, made with
`print == true` and `elapsed_sec == 1.0`, emits for core `i` the figure with
user percentage `100 * (u1 - u0) / 1e9` and sys percentage
`100 * (s1 - s0) / 1e9` (exact arithmetic), as the group
`psub("cpu<i>") pdouble("user") pdouble("sys") psubend()` of its output. -/
theorem cpuacct_second_tick_percent (split : String → Char → List String)
    (s2i : String → Nat → Bool × Nat) (w1 w2 : World) (s0 : AppState) (e1 : ℚ) (p1 : Bool)
    (U0 S0 U1 S1 : List Nat) (i : Nat)
    (h1 : reads_split split s2i w1 s0 U0 S0)
    (h2 : reads_split split s2i w2 (cgroup_proc_cpuacct split s2i w1 s0 e1 p1).state U1 S1)
    (hi0 : i < U0.length) (hi1 : i < U1.length) (hi : i < MAX_LOGICAL_CPU)
    (hu0 : U0.getD i 0 ≠ 0) (hs0 : S0.getD i 0 ≠ 0)
    (hu : U0.getD i 0 ≤ U1.getD i 0) (hs : S0.getD i 0 ≤ S1.getD i 0) :
    (⟨i, 100 * ((U1.getD i 0 : ℚ) - (U0.getD i 0 : ℚ)) / 1000000000,
        some (100 * ((S1.getD i 0 : ℚ) - (S0.getD i 0 : ℚ)) / 1000000000)⟩ : CpuFigure) ∈
        (cgroup_proc_cpuacct split s2i w2
          (cgroup_proc_cpuacct split s2i w1 s0 e1 p1).state 1 true).figures ∧
      CpuFigure.render ⟨i, 100 * ((U1.getD i 0 : ℚ) - (U0.getD i 0 : ℚ)) / 1000000000,
        some (100 * ((S1.getD i 0 : ℚ) - (S0.getD i 0 : ℚ)) / 1000000000)⟩ <:+:
        (cgroup_proc_cpuacct split s2i w2
          (cgroup_proc_cpuacct split s2i w1 s0 e1 p1).state 1 true).out := by
  have t1 := tick_split split s2i w1 s0 e1 p1 U0 S0 h1
  have t2 := tick_split split s2i w2 (cgroup_proc_cpuacct split s2i w1 s0 e1 p1).state 1 true
    U1 S1 h2
  have hprev : (cgroup_proc_cpuacct split s2i w1 s0 e1 p1).state.prev_values i =
      ⟨U0.getD i 0, S0.getD i 0⟩ := by
    rw [t1.2.1, loop_split_prev, if_pos ⟨Nat.zero_le _, by omega, hi⟩]
  obtain ⟨_, _, n1, n2, hr1, hr2, _, _⟩ := h2
  have hU1 : U1.getD i 0 < 2 ^ 64 := read_cpuacct_line_lt split s2i w2 _ _ _ _ _ hr2 i
  have hS1 : S1.getD i 0 < 2 ^ 64 := read_cpuacct_line_lt split s2i w2 _ _ _ _ _ hr1 i
  have hmem : (⟨i, 100 * ((U1.getD i 0 : ℚ) - (U0.getD i 0 : ℚ)) / 1000000000,
      some (100 * ((S1.getD i 0 : ℚ) - (S0.getD i 0 : ℚ)) / 1000000000)⟩ : CpuFigure) ∈
      (cpuacct_loop_split 1 true U1 S1 U1.length 0
        (cgroup_proc_cpuacct split s2i w1 s0 e1 p1).state.prev_values).figures := by
    rw [loop_split_figures]
    simp only [hprev]
    refine ⟨Nat.zero_le _, by omega, hi, hu0, hs0, trivial, by norm_num [MIN_ELAPSED_SECS], ?_⟩
    rw [cpu_percent_of_le _ _ hU1 hu, cpu_percent_of_le _ _ hS1 hs]
  refine ⟨by rw [t2.1]; exact hmem, ?_⟩
  rw [t2.2.2.2.1]
  exact render_infix_out true _ _ hmem

/-- Instance of C5 (as amended) on one core: counters `(3, 5)` then `(1000000003, 6)`. -/
theorem cpuacct_second_tick_percent_witness :
    (⟨0, 100 * (((([1000000003] : List Nat).getD 0 0 : Nat) : ℚ)
          - ((([3] : List Nat).getD 0 0 : Nat) : ℚ)) / 1000000000,
        some (100 * (((([6] : List Nat).getD 0 0 : Nat) : ℚ)
          - ((([5] : List Nat).getD 0 0 : Nat) : ℚ)) / 1000000000)⟩ : CpuFigure) ∈
        (cgroup_proc_cpuacct split_string_in_array_model string2int_model c5_world2
          (cgroup_proc_cpuacct split_string_in_array_model string2int_model c5_world1
            enabled_state 1 true).state 1 true).figures ∧
      CpuFigure.render ⟨0, 100 * (((([1000000003] : List Nat).getD 0 0 : Nat) : ℚ)
          - ((([3] : List Nat).getD 0 0 : Nat) : ℚ)) / 1000000000,
        some (100 * (((([6] : List Nat).getD 0 0 : Nat) : ℚ)
          - ((([5] : List Nat).getD 0 0 : Nat) : ℚ)) / 1000000000)⟩ <:+:
        (cgroup_proc_cpuacct split_string_in_array_model string2int_model c5_world2
          (cgroup_proc_cpuacct split_string_in_array_model string2int_model c5_world1
            enabled_state 1 true).state 1 true).out :=
  cpuacct_second_tick_percent split_string_in_array_model string2int_model c5_world1 c5_world2
    enabled_state 1 true [3] [5] [1000000003] [6] 0
    ⟨by decide, by decide, 1, 1, by decide, by decide, by decide, by decide⟩
    ⟨by decide, by decide, 1, 1, by decide, by decide, by decide, by decide⟩
    (by decide) (by decide) (by decide) (by decide) (by decide) (by decide) (by decide)

/-- Counterexample to C5 as stated.  Core 0 is read successfully twice in the split
layout, `(u0, s0) = (0, 5)` then `(u1, s1) = (1000000000, 6)`, so `u1 >= u0` and
`s1 >= s0`; the second call is made with `print == true` and `elapsed_sec == 1.0`,
and emits no figure at all: the stored user counter `0` reads as "no previous
sample". -/
theorem cpuacct_second_tick_percent_counterexample :
    reads_split split_string_in_array_model string2int_model c5_cex_world1 enabled_state
        [0] [5] ∧
      reads_split split_string_in_array_model string2int_model c5_cex_world2
        (cgroup_proc_cpuacct split_string_in_array_model string2int_model c5_cex_world1
          enabled_state 1 true).state [1000000000] [6] ∧
      (0 : Nat) ≤ 1000000000 ∧ (5 : Nat) ≤ 6 ∧
      (cgroup_proc_cpuacct split_string_in_array_model string2int_model c5_cex_world2
        (cgroup_proc_cpuacct split_string_in_array_model string2int_model c5_cex_world1
          enabled_state 1 true).state 1 true).figures = [] ∧
      (cgroup_proc_cpuacct split_string_in_array_model string2int_model c5_cex_world2
        (cgroup_proc_cpuacct split_string_in_array_model string2int_model c5_cex_world1
          enabled_state 1 true).state 1 true).out =
        [Out.psection "cgroup_cpuacct_stats", Out.psectionend] :=
  ⟨⟨by decide, by decide, 1, 1, by decide, by decide, by decide, by decide⟩,
    ⟨by decide, by decide, 1, 1, by decide, by decide, by decide, by decide⟩,
    by decide, by decide, by decide, by decide⟩

theorem cpuacct_out_no_figures (p : Bool) (l : LoopResult) (h : l.figures = []) :
    ∀ o ∈ cpuacct_out p l, o = Out.psection "cgroup_cpuacct_stats" ∨ o = Out.psectionend := by
  intro o ho
  unfold cpuacct_out at ho
  rw [h] at ho
  simp only [List.flatMap_nil, List.append_nil, List.mem_append] at ho
  rcases ho with ho | ho
  · split_ifs at ho
    · left; simpa using ho
    · simp at ho
  · split_ifs at ho
    · right; simpa using ho
    · simp at ho

/-- C6.  For a call `cgroup_proc_cpuacct(elapsed_sec, print)` from any state
and in any environment, in the split and in the combined layout alike:
(1) when `elapsed_sec <= 0.1` no per-core figure is emitted, the output holds at
most the opening and the closing of the section; (2) a core for which no
previous counter is stored (its `prev_values` user counter is `0`, as on the
first call) gets no figure; (3) when the call reads its counters, every slot
`i` of `prev_values` that stands for a core read holds the counters just read
(user and sys in the split layout, user in the combined layout), whatever
`elapsed_sec` and `print` are. -/
theorem cpuacct_no_figure_and_store (split : String → Char → List String)
    (s2i : String → Nat → Bool × Nat) (w : World) (s : AppState) (e : ℚ) (p : Bool) :
    (e ≤ MIN_ELAPSED_SECS →
        (cgroup_proc_cpuacct split s2i w s e p).figures = [] ∧
        ∀ o ∈ (cgroup_proc_cpuacct split s2i w s e p).out,
          o = Out.psection "cgroup_cpuacct_stats" ∨ o = Out.psectionend) ∧
      (∀ i, (s.prev_values i).counter_nsec_user_mode = 0 →
        ∀ f ∈ (cgroup_proc_cpuacct split s2i w s e p).figures, f.cpu ≠ i) ∧
      (∀ user sys, reads_split split s2i w s user sys →
        ∀ i, i < user.length → i < MAX_LOGICAL_CPU →
          (cgroup_proc_cpuacct split s2i w s e p).state.prev_values i =
            ⟨user.getD i 0, sys.getD i 0⟩) ∧
      (∀ user, reads_combined split s2i w s user →
        ∀ i, i < user.length → i < MAX_LOGICAL_CPU →
          ((cgroup_proc_cpuacct split s2i w s e p).state.prev_values i).counter_nsec_user_mode =
            user.getD i 0) := by
  refine ⟨?_, ?_, ?_, ?_⟩
  · intro he
    rcases tick_cases split s2i w s e p with h | ⟨user, sys, h⟩ | ⟨user, h⟩
    · refine ⟨h.1, ?_⟩
      rw [h.2.1]
      intro o ho
      simp at ho
    · have t := tick_split split s2i w s e p user sys h
      have hnil : (cpuacct_loop_split e p user sys user.length 0 s.prev_values).figures = [] := by
        rw [List.eq_nil_iff_forall_not_mem]
        intro f hf
        rw [loop_split_figures] at hf
        exact absurd hf.2.2.2.2.2.2.1 (not_lt.mpr he)
      rw [t.1, t.2.2.2.1]
      exact ⟨hnil, cpuacct_out_no_figures p _ hnil⟩
    · have t := tick_combined split s2i w s e p user h
      have hnil : (cpuacct_loop_combined e p user user.length 0 s.prev_values).figures = [] := by
        rw [List.eq_nil_iff_forall_not_mem]
        intro f hf
        rw [loop_combined_figures] at hf
        exact absurd hf.2.2.2.2.2.1 (not_lt.mpr he)
      rw [t.1, t.2.2.2.1]
      exact ⟨hnil, cpuacct_out_no_figures p _ hnil⟩
  · intro i hz f hf hcpu
    rcases tick_cases split s2i w s e p with h | ⟨user, sys, h⟩ | ⟨user, h⟩
    · rw [h.1] at hf
      simp at hf
    · rw [(tick_split split s2i w s e p user sys h).1, loop_split_figures] at hf
      rw [hcpu] at hf
      exact hf.2.2.2.1 hz
    · rw [(tick_combined split s2i w s e p user h).1, loop_combined_figures] at hf
      rw [hcpu] at hf
      exact hf.2.2.2.1 hz
  · intro user sys h i hlen hi
    rw [(tick_split split s2i w s e p user sys h).2.1, loop_split_prev,
      if_pos ⟨Nat.zero_le _, by omega, hi⟩]
  · intro user h i hlen hi
    rw [(tick_combined split s2i w s e p user h).2.1, loop_combined_prev,
      if_pos ⟨Nat.zero_le _, by omega, hi⟩]

/-- Instance of C6: from the initial statics, with `elapsed_sec = 0.05`, in the
split layout (`c6_world_split`) and in the combined layout (`c7_world1`). -/
theorem cpuacct_no_figure_and_store_witness :
    ((cgroup_proc_cpuacct split_string_in_array_model string2int_model c6_world_split
        enabled_state (1 / 20) true).figures = [] ∧
      ∀ o ∈ (cgroup_proc_cpuacct split_string_in_array_model string2int_model c6_world_split
          enabled_state (1 / 20) true).out,
        o = Out.psection "cgroup_cpuacct_stats" ∨ o = Out.psectionend) ∧
      (∀ f ∈ (cgroup_proc_cpuacct split_string_in_array_model string2int_model c6_world_split
          enabled_state (1 / 20) true).figures, f.cpu ≠ 1) ∧
      (cgroup_proc_cpuacct split_string_in_array_model string2int_model c6_world_split
          enabled_state (1 / 20) true).state.prev_values 1 =
        ⟨([3, 9] : List Nat).getD 1 0, ([5, 7] : List Nat).getD 1 0⟩ ∧
      ((cgroup_proc_cpuacct split_string_in_array_model string2int_model c7_world1
          enabled_state (1 / 20) true).state.prev_values 3).counter_nsec_user_mode =
        ([5, 6, 7, 8] : List Nat).getD 3 0 :=
  ⟨(cpuacct_no_figure_and_store split_string_in_array_model string2int_model c6_world_split
      enabled_state (1 / 20) true).1 (by norm_num [MIN_ELAPSED_SECS]),
    (cpuacct_no_figure_and_store split_string_in_array_model string2int_model c6_world_split
      enabled_state (1 / 20) true).2.1 1 (by decide),
    (cpuacct_no_figure_and_store split_string_in_array_model string2int_model c6_world_split
      enabled_state (1 / 20) true).2.2.1 [3, 9] [5, 7]
      ⟨by decide, by decide, 2, 2, by decide, by decide, by decide, by decide⟩ 1
      (by decide) (by decide),
    (cpuacct_no_figure_and_store split_string_in_array_model string2int_model c7_world1
      enabled_state (1 / 20) true).2.2.2 [5, 6, 7, 8]
      ⟨by decide, by decide, 4, by decide, by decide⟩ 3 (by decide) (by decide)⟩

theorem read_cpuacct_line_match (split : String → Char → List String)
    (s2i : String → Nat → Bool × Nat) (w : World) (n : Nat) (path : String) (v : List Nat)
    (hn : n ≠ 0) (hk : counters_in_file split w path = some n) :
    (read_cpuacct_line split s2i w n path v).ok = true ∧
      (read_cpuacct_line split s2i w n path v).num_cpus = n := by
  unfold counters_in_file at hk
  rcases hf : w.fopen path with _ | content
  · rw [hf] at hk; simp at hk
  · rw [hf] at hk
    simp only [] at hk
    rcases hg : fgets 1000 content with _ | ⟨line, rest⟩
    · rw [hg] at hk; simp at hk
    · rw [hg] at hk
      simp only [Option.some.injEq] at hk
      rw [read_cpuacct_line_fgets_some split s2i w n path v content line rest hf hg,
        if_neg (by rw [hk]; simp)]
      simp [hn]

/-- C7 (as amended).  The subsystem is enabled and a count `num_cpus` has been
learned.  When the file the call reads first (`cpuacct.usage_percpu_sys` if it
exists, else `cpuacct.usage_percpu`) holds a number of counters other than the
learned one, or when `cpuacct.usage_percpu_sys` holds the learned number and
`cpuacct.usage_percpu_user` another one, the call emits nothing (no figure, no
output call), forgets the learned count (`num_cpus` is `0`, the next read
learns it again) and leaves `prev_values` as it was: the previous counters are
kept, not discarded. -/
theorem cpuacct_count_mismatch (split : String → Char → List String)
    (s2i : String → Nat → Bool × Nat) (w : World) (s : AppState) (e : ℚ) (p : Bool) (k : Nat)
    (hm : s.m_bCGroupsFound ≠ 0) (hn : s.num_cpus ≠ 0) (hne : k ≠ s.num_cpus)
    (h : counters_in_file split w
          (if w.file_exists (s.cgroup_cpuacct_kernel_path ++ "/cpuacct.usage_percpu_sys") = true
            then s.cgroup_cpuacct_kernel_path ++ "/cpuacct.usage_percpu_sys"
            else s.cgroup_cpuacct_kernel_path ++ "/cpuacct.usage_percpu") = some k ∨
        (w.file_exists (s.cgroup_cpuacct_kernel_path ++ "/cpuacct.usage_percpu_sys") = true ∧
          counters_in_file split w (s.cgroup_cpuacct_kernel_path ++ "/cpuacct.usage_percpu_sys")
            = some s.num_cpus ∧
          counters_in_file split w (s.cgroup_cpuacct_kernel_path ++ "/cpuacct.usage_percpu_user")
            = some k)) :
    (cgroup_proc_cpuacct split s2i w s e p).figures = [] ∧
      (cgroup_proc_cpuacct split s2i w s e p).out = [] ∧
      (cgroup_proc_cpuacct split s2i w s e p).fault = false ∧
      (cgroup_proc_cpuacct split s2i w s e p).state.num_cpus = 0 ∧
      (cgroup_proc_cpuacct split s2i w s e p).state.prev_values = s.prev_values := by
  unfold cgroup_proc_cpuacct
  rw [if_neg hm]
  simp only []
  by_cases hex : w.file_exists (s.cgroup_cpuacct_kernel_path ++ "/cpuacct.usage_percpu_sys")
    = true
  · rw [if_pos hex]
    rw [if_pos hex] at h
    rcases h with h | ⟨-, hs, hu⟩
    · rw [read_cpuacct_line_mismatch split s2i w s.num_cpus _ [] k hn h hne]
      simp
    · obtain ⟨hok, hnum⟩ := read_cpuacct_line_match split s2i w s.num_cpus _ [] hn hs
      rw [hok, hnum]
      simp only [Bool.true_eq_false, if_false]
      rw [read_cpuacct_line_mismatch split s2i w s.num_cpus _ [] k hn hu hne]
      simp
  · rw [if_neg hex]
    rw [if_neg hex] at h
    rcases h with h | ⟨h, -⟩
    · rw [read_cpuacct_line_mismatch split s2i w s.num_cpus _ [] k hn h hne]
      simp
    · exact absurd h hex

/-- Instance of C7 (as amended): four counters were learned in `c7_world1`, the
file of `c7_world2` holds eight. -/
theorem cpuacct_count_mismatch_witness :
    (cgroup_proc_cpuacct split_string_in_array_model string2int_model c7_world2
        c7_state1 1 true).figures = [] ∧
      (cgroup_proc_cpuacct split_string_in_array_model string2int_model c7_world2
        c7_state1 1 true).out = [] ∧
      (cgroup_proc_cpuacct split_string_in_array_model string2int_model c7_world2
        c7_state1 1 true).fault = false ∧
      (cgroup_proc_cpuacct split_string_in_array_model string2int_model c7_world2
        c7_state1 1 true).state.num_cpus = 0 ∧
      (cgroup_proc_cpuacct split_string_in_array_model string2int_model c7_world2
        c7_state1 1 true).state.prev_values = c7_state1.prev_values :=
  cpuacct_count_mismatch split_string_in_array_model string2int_model c7_world2 c7_state1 1 true
    8 (by decide) (by decide) (by decide) (Or.inl (by decide))

/-- Counterexample to C7 as stated.  Four counters are learned (`5 6 7 8`); on the
next call the file holds eight values, the call emits nothing; on the following
call, which reads eight values again with `print == true` and
`elapsed_sec == 1.0`, core 0 is not treated as fresh: its counter `5` of the
first call is still in `prev_values` and a figure is emitted for it. -/
theorem cpuacct_count_mismatch_counterexample :
    c7_state1.num_cpus = 4 ∧
      counters_in_file split_string_in_array_model c7_world2 "/c/cpuacct.usage_percpu"
        = some 8 ∧
      (cgroup_proc_cpuacct split_string_in_array_model string2int_model c7_world2
        c7_state1 1 true).out = [] ∧
      (c7_state2.prev_values 0).counter_nsec_user_mode = 5 ∧
      (⟨0, cpu_percent 7 5 1, none⟩ : CpuFigure) ∈
        (cgroup_proc_cpuacct split_string_in_array_model string2int_model c7_world3
          c7_state2 1 true).figures := by
  refine ⟨by decide, by decide, by decide, by decide, ?_⟩
  have hr : reads_combined split_string_in_array_model string2int_model c7_world3 c7_state2
      [7, 8, 9, 10, 2, 2, 2, 2] := ⟨by decide, by decide, 8, by decide, by decide⟩
  rw [(tick_combined split_string_in_array_model string2int_model c7_world3 c7_state2 1 true
    _ hr).1, loop_combined_figures]
  have h5 : c7_state2.prev_values 0 = ⟨5, 0⟩ := by decide
  simp only [h5]
  exact ⟨by decide, by decide, by decide, by decide, trivial, by norm_num [MIN_ELAPSED_SECS],
    rfl⟩

theorem tick_fault_iff (split : String → Char → List String)
    (s2i : String → Nat → Bool × Nat) (w : World) (s : AppState) (e : ℚ) (p : Bool) :
    (∀ user sys, reads_split split s2i w s user sys →
        ((cgroup_proc_cpuacct split s2i w s e p).fault = true ↔
          MAX_LOGICAL_CPU < user.length)) ∧
      (∀ user, reads_combined split s2i w s user →
        ((cgroup_proc_cpuacct split s2i w s e p).fault = true ↔
          MAX_LOGICAL_CPU < user.length)) := by
  constructor
  · intro user sys h
    rw [(tick_split split s2i w s e p user sys h).2.2.1, loop_split_fault]
    omega
  · intro user h
    rw [(tick_combined split s2i w s e p user h).2.2.1, loop_combined_fault]
    omega

/-- C10, the code at the failing input.  `read_cpuacct_line` accepts the counter
line of `c10_world` (it returns `true` with more than `MAX_LOGICAL_CPU`
values), and the loop of `cgroup_proc_cpuacct` then reaches an index that is
not below `MAX_LOGICAL_CPU`: the call accesses `prev_values` past its last
slot. -/
theorem cpuacct_overruns_prev_values :
    (read_cpuacct_line split_string_in_array_model string2int_model c10_world
        enabled_state.num_cpus "/c/cpuacct.usage_percpu" []).ok = true ∧
      MAX_LOGICAL_CPU <
        (read_cpuacct_line split_string_in_array_model string2int_model c10_world
          enabled_state.num_cpus "/c/cpuacct.usage_percpu" []).valuesINT.length ∧
      (cgroup_proc_cpuacct split_string_in_array_model string2int_model c10_world
        enabled_state 1 true).fault = true := by
  refine ⟨by decide, by decide, by decide⟩

/-! ## Claims on `cgroup_proc_memory` -/

/-- C9 (as amended).  The subsystem is enabled and `fp` is null.  A call on which
the `fopen` of `memory.stat` fails publishes nothing and leaves the whole
state as it was, `fp` null included; it is not remembered.  The next call
tries the `fopen` again: when the file opens then, `fp` holds the stream and
the call publishes the section `cgroup_memory_stats`. -/
theorem memory_stat_open_is_retried (w1 w2 : World) (s : AppState) (v1 v2 : Nat)
    (content : List Char)
    (hm : s.m_bCGroupsFound ≠ 0) (hfp : s.fp = none)
    (h1 : w1.fopen (s.cgroup_memory_kernel_path ++ "/memory.stat") = none)
    (h2 : w2.fopen (s.cgroup_memory_kernel_path ++ "/memory.stat") = some content) :
    (cgroup_proc_memory w1 s v1).out = [] ∧
      (cgroup_proc_memory w1 s v1).state = s ∧
      (cgroup_proc_memory w2 (cgroup_proc_memory w1 s v1).state v2).state.fp =
        some (s.cgroup_memory_kernel_path ++ "/memory.stat") ∧
      ∃ rest, (cgroup_proc_memory w2 (cgroup_proc_memory w1 s v1).state v2).out =
        Out.psection "cgroup_memory_stats" :: rest := by
  have hs : (cgroup_proc_memory w1 s v1).state = s := by
    unfold cgroup_proc_memory
    rw [if_neg hm]
    simp only [hfp, h1, Option.map_none']
    cases s
    simp_all
  have ho : (cgroup_proc_memory w1 s v1).out = [] := by
    unfold cgroup_proc_memory
    rw [if_neg hm]
    simp only [hfp, h1, Option.map_none']
  refine ⟨ho, hs, ?_⟩
  rw [hs]
  unfold cgroup_proc_memory
  rw [if_neg hm]
  simp only [hfp, h2, Option.map_some']
  split_ifs <;> simp

/-- Instance of C9 (as amended): nothing opens in `c9_world1`, `memory.stat` opens in
`c9_world2`. -/
theorem memory_stat_open_is_retried_witness :
    (cgroup_proc_memory c9_world1 enabled_state 0).out = [] ∧
      (cgroup_proc_memory c9_world1 enabled_state 0).state = enabled_state ∧
      (cgroup_proc_memory c9_world2 (cgroup_proc_memory c9_world1 enabled_state 0).state 0).state.fp
        = some (enabled_state.cgroup_memory_kernel_path ++ "/memory.stat") ∧
      ∃ rest,
        (cgroup_proc_memory c9_world2 (cgroup_proc_memory c9_world1 enabled_state 0).state 0).out
          = Out.psection "cgroup_memory_stats" :: rest :=
  memory_stat_open_is_retried c9_world1 c9_world2 enabled_state 0 0 "total_cache 1048576\n".data
    (by decide) (by decide) (by decide) (by decide)

/-- Counterexample to C9 as stated.  The open of `memory.stat` fails on the first
call (`c9_world1`), which publishes nothing and leaves `fp` null; on the next
call the file is readable (`c9_world2`) and the sampler opens it and
publishes its metric: it is not a permanent no-op. -/
theorem memory_stat_open_counterexample :
    c9_world1.fopen (enabled_state.cgroup_memory_kernel_path ++ "/memory.stat") = none ∧
      (cgroup_proc_memory c9_world1 enabled_state 0).out = [] ∧
      (cgroup_proc_memory c9_world1 enabled_state 0).state.fp = none ∧
      (cgroup_proc_memory c9_world2 (cgroup_proc_memory c9_world1 enabled_state 0).state 0).out =
        [Out.psection "cgroup_memory_stats", Out.plong "total_cache" 1048576,
          Out.psectionend] ∧
      (cgroup_proc_memory c9_world2 (cgroup_proc_memory c9_world1 enabled_state 0).state 0).state.fp
        = some "/m/memory.stat" := by
  refine ⟨by decide, by decide, by decide, by decide, by decide⟩

/-! ### Decimal numerals -/

theorem digitChar_value (m : Nat) (h : m < 10) : (Nat.digitChar m).toNat - 48 = m := by
  interval_cases m <;> rfl

theorem digitChar_isDigit (m : Nat) (h : m < 10) : (Nat.digitChar m).isDigit = true := by
  interval_cases m <;> rfl

theorem toDigitsCore_value :
    ∀ (fuel n : Nat) (ds : List Char), n < fuel →
      List.foldl (fun acc d => 10 * acc + (d.toNat - 48)) 0 (Nat.toDigitsCore 10 fuel n ds) =
        List.foldl (fun acc d => 10 * acc + (d.toNat - 48)) n ds := by
  intro fuel
  induction fuel with
  | zero => intro n ds h; omega
  | succ f ih =>
    intro n ds h
    unfold Nat.toDigitsCore
    simp only []
    by_cases h0 : n / 10 = 0
    · rw [if_pos h0]
      simp only [List.foldl_cons, Nat.mul_zero, Nat.zero_add]
      rw [digitChar_value _ (Nat.mod_lt _ (by norm_num))]
      have : n % 10 = n := by omega
      rw [this]
    · rw [if_neg h0, ih (n / 10) _ (by omega)]
      simp only [List.foldl_cons]
      rw [digitChar_value _ (Nat.mod_lt _ (by norm_num))]
      have : 10 * (n / 10) + n % 10 = n := by omega
      rw [this]

theorem toDigitsCore_isDigit :
    ∀ (fuel n : Nat) (ds : List Char), (∀ c ∈ ds, c.isDigit = true) →
      ∀ c ∈ Nat.toDigitsCore 10 fuel n ds, c.isDigit = true := by
  intro fuel
  induction fuel with
  | zero => intro n ds h; simpa [Nat.toDigitsCore] using h
  | succ f ih =>
    intro n ds h
    unfold Nat.toDigitsCore
    simp only []
    have hd : ∀ c ∈ Nat.digitChar (n % 10) :: ds, c.isDigit = true := by
      intro c hc
      rcases List.mem_cons.mp hc with rfl | hc
      · exact digitChar_isDigit _ (Nat.mod_lt _ (by norm_num))
      · exact h c hc
    by_cases h0 : n / 10 = 0
    · rw [if_pos h0]; exact hd
    · rw [if_neg h0]; exact ih _ _ hd

theorem toDigitsCore_ne_nil :
    ∀ (fuel n : Nat) (ds : List Char), 0 < fuel → Nat.toDigitsCore 10 fuel n ds ≠ [] := by
  intro fuel
  induction fuel with
  | zero => intro n ds h; omega
  | succ f ih =>
    intro n ds _
    unfold Nat.toDigitsCore
    simp only []
    by_cases h0 : n / 10 = 0
    · rw [if_pos h0]; simp
    · rw [if_neg h0]
      cases f with
      | zero => simp [Nat.toDigitsCore]
      | succ f => exact ih _ _ (Nat.succ_pos f)

theorem repr_value (v : Nat) : digits_value (Nat.repr v).data = v := by
  unfold digits_value Nat.repr Nat.toDigits
  simp only [List.asString]
  rw [toDigitsCore_value _ _ _ (Nat.lt_succ_self v)]
  rfl

theorem repr_isDigit (v : Nat) : ∀ c ∈ (Nat.repr v).data, c.isDigit = true := by
  unfold Nat.repr Nat.toDigits
  simp only [List.asString]
  exact toDigitsCore_isDigit _ _ _ (by simp)

theorem repr_ne_nil (v : Nat) : (Nat.repr v).data ≠ [] := by
  unfold Nat.repr Nat.toDigits
  simp only [List.asString]
  exact toDigitsCore_ne_nil _ _ _ (Nat.succ_pos v)

/-! ### Scanning one line of `memory.stat` -/

theorem takeWhile_append_stop {α : Type} (q : α → Bool) (a : List α) (x : α) (r : List α)
    (ha : ∀ c ∈ a, q c = true) (hx : q x = false) :
    (a ++ x :: r).takeWhile q = a ∧ (a ++ x :: r).dropWhile q = x :: r := by
  induction a with
  | nil => simp [List.takeWhile, List.dropWhile, hx]
  | cons c cs ih =>
    have hc : q c = true := ha c (List.mem_cons_self _ _)
    have ih2 := ih (fun d hd => ha d (List.mem_cons_of_mem _ hd))
    simp [List.takeWhile, List.dropWhile, hc, ih2.1, ih2.2]

theorem takeWhile_all {α : Type} (q : α → Bool) (a : List α) (ha : ∀ c ∈ a, q c = true) :
    a.takeWhile q = a := by
  induction a with
  | nil => rfl
  | cons c cs ih =>
    have hc : q c = true := ha c (List.mem_cons_self _ _)
    simp [List.takeWhile, hc, ih (fun d hd => ha d (List.mem_cons_of_mem _ hd))]

theorem isDigit_plain (c : Char) (h : c.isDigit = true) :
    isspace c = false ∧ c ≠ '\x00' ∧ c ≠ '(' ∧ c ≠ ')' ∧ c ≠ ':' ∧ c ≠ '\n' ∧ c ≠ '-' ∧
      c ≠ '+' := by
  have hv : 48 ≤ c.val ∧ c.val ≤ 57 := by
    simpa [Char.isDigit] using h
  have hne : ∀ d : Char, ¬ (48 ≤ d.val ∧ d.val ≤ 57) → c ≠ d := by
    intro d hd hcd
    rw [hcd] at hv
    exact hd hv
  refine ⟨?_, hne _ (by decide), hne _ (by decide), hne _ (by decide), hne _ (by decide),
    hne _ (by decide), hne _ (by decide), hne _ (by decide)⟩
  unfold isspace
  simp only [Bool.or_eq_false_iff, decide_eq_false_iff_not]
  exact ⟨⟨⟨⟨⟨hne _ (by decide), hne _ (by decide)⟩, hne _ (by decide)⟩, hne _ (by decide)⟩,
    hne _ (by decide)⟩, hne _ (by decide)⟩

theorem plain_char_facts (c : Char) (h : plain_char c = true) :
    isspace c = false ∧ c ≠ '\x00' ∧ c ≠ '(' ∧ c ≠ ')' ∧ c ≠ ':' ∧ c ≠ '\n' := by
  unfold plain_char at h
  simp only [Bool.and_eq_true, Bool.not_eq_true', bne_iff_ne, ne_eq] at h
  obtain ⟨⟨⟨⟨h1, h2⟩, h3⟩, h4⟩, h5⟩ := h
  refine ⟨h1, h2, h3, h4, h5, ?_⟩
  intro hn
  rw [hn] at h1
  exact absurd h1 (by decide)

theorem sanitize_char_of_plain (c : Char) (h1 : c ≠ '(') (h2 : c ≠ ')') (h3 : c ≠ ':')
    (h4 : c ≠ '\n') : sanitize_char c = c := by
  unfold sanitize_char
  simp [h1, h2, h3, h4]

theorem dropWhile_head_false {α : Type} (q : α → Bool) (a : List α)
    (ha : ∀ c, a.head? = some c → q c = false) : a.dropWhile q = a := by
  cases a with
  | nil => rfl
  | cons c cs =>
    have hc : q c = false := ha c rfl
    simp [List.dropWhile, hc]

theorem scan_label_total (name digits : List Char)
    (hname : ∀ c ∈ name, plain_char c = true) :
    scan_label ("total_".data ++ name ++ ' ' :: digits) =
      ("total_".data ++ name, ' ' :: digits) := by
  have hhead : ∀ c ∈ "total_".data ++ name, (fun c => !isspace c) c = true := by
    intro c hc
    rcases List.mem_append.mp hc with hc | hc
    · have : c = 't' ∨ c = 'o' ∨ c = 't' ∨ c = 'a' ∨ c = 'l' ∨ c = '_' := by
        simpa using hc
      rcases this with rfl | rfl | rfl | rfl | rfl | rfl <;> decide
    · simp [(plain_char_facts c (hname c hc)).1]
  have hsp : (fun c => !isspace c) ' ' = false := by decide
  have hdrop : ("total_".data ++ name ++ ' ' :: digits).dropWhile isspace =
      "total_".data ++ name ++ ' ' :: digits := by
    apply dropWhile_head_false
    intro c hc
    have : c = 't' := by
      have h0 : ("total_".data ++ name ++ ' ' :: digits).head? = some 't' := rfl
      rw [h0] at hc
      exact (Option.some.inj hc).symm
    rw [this]
    decide
  unfold scan_label
  simp only []
  rw [hdrop]
  have h := takeWhile_append_stop (fun c => !isspace c) ("total_".data ++ name) ' ' digits
    hhead hsp
  rw [h.1, h.2]

theorem scan_ulong_repr (v : Nat) (hv : v < 2 ^ 64) :
    scan_ulong (' ' :: (Nat.repr v).data) = some v := by
  have hdig := repr_isDigit v
  have hne := repr_ne_nil v
  have hdrop : (' ' :: (Nat.repr v).data).dropWhile isspace = (Nat.repr v).data := by
    have h1 : (' ' :: (Nat.repr v).data).dropWhile isspace =
        (Nat.repr v).data.dropWhile isspace := by
      simp [List.dropWhile, isspace]
    rw [h1]
    apply dropWhile_head_false
    intro c hc
    exact (isDigit_plain c (hdig c (List.mem_of_mem_head? hc))).1
  have hsign : ¬ ((Nat.repr v).data.head? = some '-' ∨ (Nat.repr v).data.head? = some '+') := by
    rintro (h | h)
    · exact (isDigit_plain _ (hdig _ (List.mem_of_mem_head? h))).2.2.2.2.2.2.1 rfl
    · exact (isDigit_plain _ (hdig _ (List.mem_of_mem_head? h))).2.2.2.2.2.2.2 rfl
  have hneg : (decide ((Nat.repr v).data.head? = some '-')) = false := by
    simp only [decide_eq_false_iff_not]
    exact fun h => hsign (Or.inl h)
  unfold scan_ulong
  simp only []
  rw [hdrop, if_neg hsign, takeWhile_all _ _ hdig, if_neg hne, repr_value,
    if_neg (by omega), hneg]
  simp

theorem memory_stat_record_stat_line (name : List Char) (v : Nat)
    (hname : ∀ c ∈ name, plain_char c = true) (hv : v < 2 ^ 64) :
    memory_stat_record (stat_line name v) = some ("total_".data ++ name, some v) := by
  have hbody : ∀ c ∈ "total_".data ++ name ++ ' ' :: (Nat.repr v).data,
      c ≠ '\x00' ∧ c ≠ '(' ∧ c ≠ ')' ∧ c ≠ ':' ∧ c ≠ '\n' := by
    intro c hc
    rcases List.mem_append.mp hc with hc | hc
    · rcases List.mem_append.mp hc with hc | hc
      · have : c = 't' ∨ c = 'o' ∨ c = 't' ∨ c = 'a' ∨ c = 'l' ∨ c = '_' := by
          simpa using hc
        rcases this with rfl | rfl | rfl | rfl | rfl | rfl <;> decide
      · exact (plain_char_facts c (hname c hc)).2
    · rcases List.mem_cons.mp hc with rfl | hc
      · decide
      · have := isDigit_plain c (repr_isDigit v c hc)
        exact ⟨this.2.1, this.2.2.1, this.2.2.2.1, this.2.2.2.2.1, this.2.2.2.2.2.1⟩
  have hcstr : c_str (stat_line name v) = stat_line name v := by
    unfold c_str
    apply takeWhile_all
    intro c hc
    unfold stat_line at hc
    rcases List.mem_append.mp hc with hc | hc
    · simpa using (hbody c hc).1
    · have : c = '\n' := by simpa using hc
      rw [this]
      decide
  have hmap : (stat_line name v).map sanitize_char =
      ("total_".data ++ name ++ ' ' :: (Nat.repr v).data) ++ '\x00' :: [] := by
    unfold stat_line
    rw [List.map_append]
    congr 1
    conv_rhs => rw [← List.map_id ("total_".data ++ name ++ ' ' :: (Nat.repr v).data)]
    apply List.map_congr_left
    intro c hc
    have := hbody c hc
    simp only [id]
    exact sanitize_char_of_plain c this.2.1 this.2.2.1 this.2.2.2.1 this.2.2.2.2
  have hcstr2 : c_str (("total_".data ++ name ++ ' ' :: (Nat.repr v).data) ++ '\x00' :: []) =
      "total_".data ++ name ++ ' ' :: (Nat.repr v).data := by
    unfold c_str
    exact (takeWhile_append_stop _ _ '\x00' [] (fun c hc => by simpa using (hbody c hc).1)
      (by decide)).1
  have htake : (stat_line name v).take 6 = "total_".data := by
    unfold stat_line
    rfl
  unfold memory_stat_record
  simp only []
  rw [hcstr, if_neg (by rw [htake]; simp), hmap, hcstr2, scan_label_total name _ hname,
    scan_ulong_repr v hv]

/-! ### The `while` loop of `cgroup_proc_memory` -/

theorem fgets_line_pos (room : Nat) (c : Char) (cs : List Char) :
    0 < (fgets_line (room + 1) (c :: cs)).length := by
  unfold fgets_line
  split_ifs <;> simp

theorem fgets_rest_lt (content line rest : List Char)
    (h : fgets 1000 content = some (line, rest)) : rest.length < content.length := by
  unfold fgets at h
  cases content with
  | nil => simp at h
  | cons c cs =>
    simp only [reduceCtorEq, if_false, Option.some.injEq, Prod.mk.injEq] at h
    rw [← h.2, List.length_drop]
    have hpos : 0 < (fgets_line (1000 - 1) (c :: cs)).length := fgets_line_pos 998 c cs
    simp only [List.length_cons]
    omega

theorem memory_stat_loop_fuel :
    ∀ (fuel1 fuel2 v : Nat) (content : List Char),
      content.length ≤ fuel1 → content.length ≤ fuel2 →
      memory_stat_loop fuel1 v content = memory_stat_loop fuel2 v content := by
  intro fuel1
  induction fuel1 with
  | zero =>
    intro fuel2 v content h1 _
    have hc : content = [] := List.length_eq_zero.mp (Nat.le_zero.mp h1)
    subst hc
    cases fuel2 with
    | zero => rfl
    | succ f2 => simp [memory_stat_loop, fgets]
  | succ f1 ih =>
    intro fuel2 v content h1 h2
    rcases hg : fgets 1000 content with _ | ⟨line, rest⟩
    · cases fuel2 with
      | zero => simp [memory_stat_loop, hg]
      | succ f2 => simp [memory_stat_loop, hg]
    · have hlt := fgets_rest_lt content line rest hg
      cases fuel2 with
      | zero => omega
      | succ f2 =>
        unfold memory_stat_loop
        simp only [hg]
        rcases memory_stat_record line with _ | ⟨label, val⟩
        · exact ih f2 v rest (by omega) (by omega)
        · simp only []
          rw [ih f2 (val.getD 0) rest (by omega) (by omega)]

theorem memory_stat_record_selected (line label : List Char) (val : Option Nat)
    (h : memory_stat_record line = some (label, val)) :
    (c_str line).take 6 = "total_".data ∧ label.take 6 = "total_".data := by
  unfold memory_stat_record at h
  simp only [] at h
  by_cases hp : (c_str line).take 6 = "total_".data
  · refine ⟨hp, ?_⟩
    rw [if_neg (by simpa using hp)] at h
    simp only [Option.some.injEq, Prod.mk.injEq] at h
    rw [← h.1]
    have hsplit : c_str line = "total_".data ++ (c_str line).drop 6 := by
      conv_lhs => rw [← List.take_append_drop 6 (c_str line), hp]
    rw [hsplit]
    simp [scan_label, c_str, sanitize_char, List.takeWhile, List.dropWhile, isspace]
  · rw [if_pos (by simpa using hp)] at h
    simp at h

theorem memory_stat_loop_out_from_records :
    ∀ (fuel v : Nat) (content : List Char) (o : Out),
      o ∈ (memory_stat_loop fuel v content).out →
      ∃ line ∈ fgets_records fuel content, ∃ label val,
        memory_stat_record line = some (label, val) ∧
        o = Out.plong (String.mk label) (val.getD 0) := by
  intro fuel
  induction fuel with
  | zero => intro v content o h; simp [memory_stat_loop] at h
  | succ f ih =>
    intro v content o h
    unfold memory_stat_loop at h
    unfold fgets_records
    rcases hg : fgets 1000 content with _ | ⟨line, rest⟩
    · rw [hg] at h; simp at h
    · rw [hg] at h
      simp only [] at h ⊢
      rcases hr : memory_stat_record line with _ | ⟨label, val⟩
      · rw [hr] at h
        simp only [] at h
        obtain ⟨l, hl, hrest⟩ := ih v rest o h
        exact ⟨l, List.mem_cons_of_mem _ hl, hrest⟩
      · rw [hr] at h
        simp only [] at h
        split_ifs at h with hlen
        · simp at h
        · simp only [List.mem_cons] at h
          rcases h with h | h
          · exact ⟨line, List.mem_cons_self _ _, label, val, hr, h⟩
          · obtain ⟨l, hl, hrest⟩ := ih _ rest o h
            exact ⟨l, List.mem_cons_of_mem _ hl, hrest⟩

theorem memory_stat_loop_publishes :
    ∀ (fuel v : Nat) (content line label : List Char) (val : Option Nat),
      line ∈ fgets_records fuel content →
      (memory_stat_loop fuel v content).fault = false →
      memory_stat_record line = some (label, val) →
      Out.plong (String.mk label) (val.getD 0) ∈ (memory_stat_loop fuel v content).out := by
  intro fuel
  induction fuel with
  | zero => intro v content line label val h; simp [fgets_records] at h
  | succ f ih =>
    intro v content line label val hmem hfault hrec
    unfold fgets_records at hmem
    unfold memory_stat_loop at hfault ⊢
    rcases hg : fgets 1000 content with _ | ⟨l0, rest⟩
    · rw [hg] at hmem; simp at hmem
    · rw [hg] at hmem hfault
      simp only [] at hmem hfault ⊢
      rcases hr : memory_stat_record l0 with _ | ⟨label0, val0⟩
      · try rw [hr] at hfault
        simp only [] at hfault ⊢
        rcases List.mem_cons.mp hmem with h | h
        · rw [h, hr] at hrec; simp at hrec
        · exact ih v rest line label val h hfault hrec
      · try rw [hr] at hfault
        simp only [] at hfault ⊢
        by_cases hlen : 512 ≤ label0.length
        · rw [if_pos hlen] at hfault; simp at hfault
        · rw [if_neg hlen] at hfault ⊢
          simp only [] at hfault ⊢
          rcases List.mem_cons.mp hmem with h | h
          · rw [h, hr] at hrec
            simp only [Option.some.injEq, Prod.mk.injEq] at hrec
            rw [hrec.1, hrec.2]
            exact List.mem_cons_self _ _
          · exact List.mem_cons_of_mem _ (ih _ rest line label val h hfault hrec)

theorem fgets_line_newline :
    ∀ (l : List Char) (room : Nat) (rest : List Char), '\n' ∉ l → l.length < room →
      fgets_line room (l ++ '\n' :: rest) = l ++ ['\n'] := by
  intro l
  induction l with
  | nil =>
    intro room rest _ hlen
    cases room with
    | zero => simp at hlen
    | succ r => simp [fgets_line]
  | cons c cs ih =>
    intro room rest hnl hlen
    cases room with
    | zero => simp at hlen
    | succ r =>
      have hc : c ≠ '\n' := fun h => hnl (by rw [h]; exact List.mem_cons_self _ _)
      have hcs : '\n' ∉ cs := fun h => hnl (List.mem_cons_of_mem _ h)
      rw [List.cons_append]
      unfold fgets_line
      rw [if_neg hc, ih r rest hcs (by simpa using hlen)]
      rfl

theorem fgets_records_of_lines :
    ∀ (lines : List (List Char)) (fuel : Nat),
      (∀ l ∈ lines, '\n' ∉ l ∧ l.length < 999) →
      (lines.map fun l => l ++ ['\n']).flatten.length ≤ fuel →
      fgets_records fuel (lines.map fun l => l ++ ['\n']).flatten =
        lines.map fun l => l ++ ['\n'] := by
  intro lines
  induction lines with
  | nil =>
    intro fuel _ _
    cases fuel <;> simp [fgets_records, fgets]
  | cons l ls ih =>
    intro fuel hl hfuel
    have hl0 := hl l (List.mem_cons_self _ _)
    have hg : fgets 1000 ((l ++ ['\n']) ++ (ls.map fun l => l ++ ['\n']).flatten) =
        some (l ++ ['\n'], (ls.map fun l => l ++ ['\n']).flatten) := by
      have hline : fgets_line (1000 - 1)
          ((l ++ ['\n']) ++ (ls.map fun l => l ++ ['\n']).flatten) = l ++ ['\n'] := by
        rw [List.append_assoc]
        exact fgets_line_newline l 999 _ hl0.1 hl0.2
      unfold fgets
      rw [if_neg (by simp), hline, List.drop_left]
    simp only [List.map_cons, List.flatten_cons] at hfuel ⊢
    cases fuel with
    | zero => simp at hfuel
    | succ f =>
      unfold fgets_records
      rw [hg]
      simp only []
      rw [ih f (fun x hx => hl x (List.mem_cons_of_mem _ hx))
        (by simp only [List.length_append, List.length_cons] at hfuel; omega)]

/-- C8 (as amended).  (1) Every output call of `cgroup_proc_memory` is the opening
or the closing of the section, the `failcnt` metric, or the metric of a line
that `fgets` read from `memory.stat` and that begins with `total_`; the key of
such a metric is the first token of the sanitised line and still begins with
`total_`.  (2) When the subsystem is enabled, the line `total_<name> <value>`
(a name of plain characters, a value below `2 ^ 64` in decimal) is one of the
lines read and `label` is not overrun, the metric `total_<name> = <value>` is
published: the prefix is kept in the key. -/
theorem memory_stat_publishes_totals (w : World) (s : AppState) (v0 : Nat) :
    (∀ o ∈ (cgroup_proc_memory w s v0).out,
        o = Out.psection "cgroup_memory_stats" ∨ o = Out.psectionend ∨
        (∃ v, o = Out.plong "failcnt" v) ∨
        ∃ content line label val,
          memory_stat_content w s = some content ∧
          line ∈ fgets_records content.length content ∧
          (c_str line).take 6 = "total_".data ∧
          memory_stat_record line = some (label, val) ∧
          label.take 6 = "total_".data ∧
          o = Out.plong (String.mk label) (val.getD 0)) ∧
      (∀ content name value,
        s.m_bCGroupsFound ≠ 0 →
        memory_stat_content w s = some content →
        stat_line name value ∈ fgets_records content.length content →
        (∀ c ∈ name, plain_char c = true) →
        value < 2 ^ 64 →
        (cgroup_proc_memory w s v0).fault = false →
        Out.plong (String.mk ("total_".data ++ name)) value ∈ (cgroup_proc_memory w s v0).out) := by
  have hopen : ∀ content, memory_stat_content w s = some content →
      ∃ p, (match s.fp with
          | none =>
            (w.fopen (s.cgroup_memory_kernel_path ++ "/memory.stat")).map fun content =>
              (s.cgroup_memory_kernel_path ++ "/memory.stat", content)
          | some p => some (p, w.stream p)) = some (p, content) := by
    intro content hc
    unfold memory_stat_content at hc
    cases hfp : s.fp with
    | none => rw [hfp] at hc; simp only [] at hc ⊢; rw [hc]; exact ⟨_, rfl⟩
    | some p =>
      rw [hfp] at hc
      simp only [Option.some.injEq] at hc
      exact ⟨p, by simp only [hc]⟩
  constructor
  · intro o ho
    by_cases hm : s.m_bCGroupsFound = 0
    · unfold cgroup_proc_memory at ho
      rw [if_pos hm] at ho
      simp at ho
    · rcases Option.eq_none_or_eq_some (memory_stat_content w s) with hc | ⟨content, hc⟩
      · have hnone : (match s.fp with
            | none =>
              (w.fopen (s.cgroup_memory_kernel_path ++ "/memory.stat")).map fun content =>
                (s.cgroup_memory_kernel_path ++ "/memory.stat", content)
            | some p => some (p, w.stream p)) = none := by
          unfold memory_stat_content at hc
          cases hfp : s.fp with
          | none => rw [hfp] at hc; simp only [] at hc ⊢; rw [hc]; rfl
          | some p => rw [hfp] at hc; simp at hc
        unfold cgroup_proc_memory at ho
        rw [if_neg hm] at ho
        simp only [] at ho
        rw [hnone] at ho
        simp at ho
      · obtain ⟨p, hp⟩ := hopen content hc
        unfold cgroup_proc_memory at ho
        rw [if_neg hm] at ho
        simp only [] at ho
        rw [hp] at ho
        simp only [] at ho
        have hloop : ∀ o ∈ (memory_stat_loop content.length v0 content).out,
            ∃ content line label val,
              memory_stat_content w s = some content ∧
              line ∈ fgets_records content.length content ∧
              (c_str line).take 6 = "total_".data ∧
              memory_stat_record line = some (label, val) ∧
              label.take 6 = "total_".data ∧
              o = Out.plong (String.mk label) (val.getD 0) := by
          intro o ho
          obtain ⟨line, hline, label, val, hrec, ho⟩ :=
            memory_stat_loop_out_from_records _ _ _ o ho
          have hsel := memory_stat_record_selected line label val hrec
          exact ⟨content, line, label, val, hc, hline, hsel.1, hrec, hsel.2, ho⟩
        split_ifs at ho with hfault hfc
        · rcases List.mem_cons.mp ho with h | h
          · exact Or.inl h
          · exact Or.inr (Or.inr (Or.inr (hloop o h)))
        · simp only [List.cons_append, List.mem_cons, List.mem_append, List.mem_singleton,
            List.not_mem_nil, or_false, false_or, List.append_nil] at ho
          rcases ho with h | (h | h) | h
          · exact Or.inl h
          · exact Or.inr (Or.inr (Or.inr (hloop o h)))
          · exact Or.inr (Or.inr (Or.inl ⟨_, h⟩))
          · exact Or.inr (Or.inl h)
        · simp only [List.cons_append, List.mem_cons, List.mem_append, List.mem_singleton,
            List.not_mem_nil, or_false, false_or, List.append_nil] at ho
          rcases ho with h | h | h
          · exact Or.inl h
          · exact Or.inr (Or.inr (Or.inr (hloop o h)))
          · exact Or.inr (Or.inl h)
  · intro content name value hm hc hline hname hv hfault
    obtain ⟨p, hp⟩ := hopen content hc
    have hrec := memory_stat_record_stat_line name value hname hv
    unfold cgroup_proc_memory at hfault ⊢
    rw [if_neg hm] at hfault ⊢
    simp only [] at hfault ⊢
    rw [hp] at hfault ⊢
    simp only [] at hfault ⊢
    by_cases hf : (memory_stat_loop content.length v0 content).fault = true
    · rw [if_pos hf] at hfault
      simp at hfault
    · rw [if_neg hf]
      have hmem := memory_stat_loop_publishes content.length v0 content _ _ _ hline
        (by simpa using hf) hrec
      simp only [Option.getD_some] at hmem
      simp only [List.cons_append, List.mem_cons, List.mem_append]
      exact Or.inr (Or.inl (Or.inl hmem))

/-! ## Claims on the mount resolver and on `cgroup_init` -/

theorem mem_take_of_getElem? (lines : List String) (k j : Nat) (l : String) (hj : j < k)
    (hl : lines[j]? = some l) : l ∈ lines.take k := by
  have h : (lines.take k)[j]? = some l := by
    rw [List.getElem?_take_of_lt hj]
    exact hl
  exact List.getElem?_mem h

/-- C1.  The mount table is read and every line of it has exactly six fields.  When
`line` is the first line with `fs_spec == "cgroup"` whose `fs_mntops` contains
`"cpuset"`, and its `fs_file` is neither empty nor `/`,
`get_cgroup_path_for_pid("cpuset", out)` returns `true` and sets `out` to
exactly that `fs_file`. -/
theorem resolve_cpuset_returns_fs_file (split : String → Char → List String)
    (lines : List String) (out : String) (k : Nat) (line : String)
    (h6 : ∀ l ∈ lines, (split l ' ').length = 6)
    (hk : lines[k]? = some line)
    (hm : mount_matches split "cpuset" line)
    (hfirst : ∀ l ∈ lines.take k, ¬ mount_matches split "cpuset" l)
    (hfile : mount_fs_file split line ≠ "" ∧ mount_fs_file split line ≠ "/") :
    get_cgroup_path_for_pid split (some lines) "cpuset" out =
      (true, mount_fs_file split line) := by
  unfold get_cgroup_path_for_pid
  simp only []
  rw [scan_mounts_first_match split "cpuset" out lines k line hk
    (fun j l _ hl => h6 l (List.getElem?_mem hl)) hm
    (fun j l hj hl => hfirst l (mem_take_of_getElem? lines k j l hj hl))]
  rw [if_neg (by
    rintro (h | h)
    · exact hfile.1 h
    · exact hfile.2 h)]

/-- Instance of C1 on `c1_mounts`: the `cpuset` record is the fourth line. -/
theorem resolve_cpuset_returns_fs_file_witness :
    get_cgroup_path_for_pid split_string_in_array_model (some c1_mounts) "cpuset" "" =
      (true, mount_fs_file split_string_in_array_model
        "cgroup /sys/fs/cgroup/cpuset cgroup rw,nosuid,nodev,noexec,relatime,cpuset 0 0") :=
  resolve_cpuset_returns_fs_file split_string_in_array_model c1_mounts "" 3
    "cgroup /sys/fs/cgroup/cpuset cgroup rw,nosuid,nodev,noexec,relatime,cpuset 0 0"
    (by decide) (by decide) (by decide) (by decide) (by decide)

/-- C2 (as amended).  The mount table is read and one of its records has a field
count other than six.  When no record before it is a six-field record that
matches the controller, `get_cgroup_path_for_pid` returns `false`. -/
theorem malformed_record_before_match_aborts (split : String → Char → List String)
    (lines : List String) (cgroup_type out : String) (k : Nat) (bad : String)
    (hk : lines[k]? = some bad)
    (hbad : (split bad ' ').length ≠ 6)
    (hfirst : ∀ l ∈ lines.take k, (split l ' ').length = 6 →
      ¬ mount_matches split cgroup_type l) :
    (get_cgroup_path_for_pid split (some lines) cgroup_type out).1 = false := by
  unfold get_cgroup_path_for_pid
  simp only []
  exact scan_mounts_malformed split cgroup_type out lines k bad hk hbad
    (fun j l hj hl => hfirst l (mem_take_of_getElem? lines k j l hj hl))

/-- Instance of C2 (as amended) on `c2_mounts_bad_first`. -/
theorem malformed_record_before_match_aborts_witness :
    (get_cgroup_path_for_pid split_string_in_array_model (some c2_mounts_bad_first)
      "cpuset" "").1 = false :=
  malformed_record_before_match_aborts split_string_in_array_model c2_mounts_bad_first
    "cpuset" "" 0 "rootfs / rootfs" (by decide) (by decide) (by decide)

/-- Counterexample to C2 as stated.  The mount table `c2_mounts_bad_last` has a
record with three fields, after the record that matches `cpuset`:
`get_cgroup_path_for_pid` returns `true` with the path of the matching record,
the malformed record is never read. -/
theorem malformed_record_after_match_counterexample :
    (∃ l ∈ c2_mounts_bad_last, (split_string_in_array_model l ' ').length ≠ 6) ∧
      get_cgroup_path_for_pid split_string_in_array_model (some c2_mounts_bad_last)
        "cpuset" "" = (true, "/sys/fs/cgroup/cpuset") := by
  refine ⟨by decide, by decide⟩

/-- C3.  `cgroup_init` leaves `m_bCGroupsFound` at `0` or at `1`, and at `1`
exactly when all five steps succeed: the `memory` mount resolves, the cpuacct
mount resolves under `cpu,cpuacct` or, that failing, under `cpuacct,cpu`, the
`cpuset` mount resolves, `memory.limit_in_bytes` under the memory mount is read
with a non-zero value, and `cpuset.cpus` under the cpuset mount is read. -/
theorem cgroup_init_enabled_iff_all_steps (split : String → Char → List String) (w : World)
    (s : AppState) :
    ((cgroup_init split w s).m_bCGroupsFound = 0 ∨
        (cgroup_init split w s).m_bCGroupsFound = 1) ∧
      ((cgroup_init split w s).m_bCGroupsFound = 1 ↔
        ∃ mem acct cset lim cpus,
          get_cgroup_path_for_pid split w.mounts "memory" s.cgroup_memory_kernel_path
            = (true, mem) ∧
          (get_cgroup_path_for_pid split w.mounts "cpu,cpuacct" s.cgroup_cpuacct_kernel_path
              = (true, acct) ∨
            ∃ tmp, get_cgroup_path_for_pid split w.mounts "cpu,cpuacct"
                s.cgroup_cpuacct_kernel_path = (false, tmp) ∧
              get_cgroup_path_for_pid split w.mounts "cpuacct,cpu" tmp = (true, acct)) ∧
          get_cgroup_path_for_pid split w.mounts "cpuset" s.cgroup_cpuset_kernel_path
            = (true, cset) ∧
          w.read_integer (mem ++ "/memory.limit_in_bytes") s.cgroup_memory_limit_bytes
            = (true, lim) ∧
          lim ≠ 0 ∧
          w.read_integers_with_range_validation (cset ++ "/cpuset.cpus") 0 INT32_MAX
            s.cgroup_cpus = (true, cpus)) :=
  ⟨cgroup_init_found_cases split w s, cgroup_init_enabled_iff split w s⟩

theorem cgroup_init_enabled_cpus (split : String → Char → List String) (w : World)
    (s : AppState) (h : (cgroup_init split w s).m_bCGroupsFound ≠ 0) :
    (cgroup_init split w s).cgroup_cpus =
      (w.read_integers_with_range_validation
        ((cgroup_init split w s).cgroup_cpuset_kernel_path ++ "/cpuset.cpus") 0 INT32_MAX
        s.cgroup_cpus).2 := by
  unfold cgroup_init read_from_system_cpu_for_current_cgroup at h ⊢
  simp only [] at h ⊢
  split_ifs at h ⊢ <;> simp_all

/-- C4.  `cgroup_is_allowed_cpu(cpu)` returns `0` or `1`; it returns true
(non-zero) exactly when the subsystem is disabled (`m_bCGroupsFound == 0`) or
`cpu` is a member of `cgroup_cpus`; and after a `cgroup_init` that enabled the
subsystem, `cgroup_cpus` is the set that the read of `cpuset.cpus` produced, so
that the answer is membership in that parsed set. -/
theorem cgroup_is_allowed_cpu_iff (split : String → Char → List String) (w : World)
    (s : AppState) (cpu : Int) :
    (cgroup_is_allowed_cpu s cpu = 0 ∨ cgroup_is_allowed_cpu s cpu = 1) ∧
      (cgroup_is_allowed_cpu s cpu ≠ 0 ↔ (s.m_bCGroupsFound = 0 ∨ cpu ∈ s.cgroup_cpus)) ∧
      ((cgroup_init split w s).m_bCGroupsFound ≠ 0 →
        (cgroup_is_allowed_cpu (cgroup_init split w s) cpu ≠ 0 ↔
          cpu ∈ (w.read_integers_with_range_validation
            ((cgroup_init split w s).cgroup_cpuset_kernel_path ++ "/cpuset.cpus") 0 INT32_MAX
            s.cgroup_cpus).2)) := by
  have hiff : ∀ t : AppState,
      cgroup_is_allowed_cpu t cpu ≠ 0 ↔ (t.m_bCGroupsFound = 0 ∨ cpu ∈ t.cgroup_cpus) := by
    intro t
    unfold cgroup_is_allowed_cpu
    by_cases hm : t.m_bCGroupsFound = 0
    · simp [hm]
    · by_cases hc : cpu ∈ t.cgroup_cpus <;> simp [hm, hc]
  refine ⟨?_, hiff s, ?_⟩
  · unfold cgroup_is_allowed_cpu
    split_ifs <;> simp
  · intro h
    rw [hiff, ← cgroup_init_enabled_cpus split w s h]
    simp [h]

/-- Instance of C4: after `cgroup_init` in `init_world`, CPU 3 is allowed and CPU 2
is not. -/
theorem cgroup_is_allowed_cpu_iff_witness :
    (cgroup_is_allowed_cpu (cgroup_init split_string_in_array_model init_world
        AppState.initial) 3 ≠ 0 ↔
      (3 : Int) ∈ (init_world.read_integers_with_range_validation
        ((cgroup_init split_string_in_array_model init_world
          AppState.initial).cgroup_cpuset_kernel_path ++ "/cpuset.cpus") 0 INT32_MAX
        AppState.initial.cgroup_cpus).2) ∧
      (3 : Int) ∈ (cgroup_init split_string_in_array_model init_world
        AppState.initial).cgroup_cpus ∧
      cgroup_is_allowed_cpu (cgroup_init split_string_in_array_model init_world
        AppState.initial) 2 = 0 :=
  ⟨(cgroup_is_allowed_cpu_iff split_string_in_array_model init_world AppState.initial 3).2.2
      (by decide), by decide, by decide⟩

/-- Instance of C8 (as amended) on `c8_world`: every output call is of one of the
listed kinds, and the line `total_cache 1048576` is published as
`total_cache = 1048576`. -/
theorem memory_stat_publishes_totals_witness :
    Out.plong (String.mk ("total_".data ++ "cache".data)) 1048576 ∈
      (cgroup_proc_memory c8_world enabled_state 0).out :=
  (memory_stat_publishes_totals c8_world enabled_state 0).2
    "cache 4096\ntotal_cache 1048576\n".data "cache".data 1048576
    (by decide) (by decide) (by decide) (by decide) (by decide) (by decide)

/-- Counterexample to C8 as stated.  With `memory.stat` holding the lines `cache 4096`
and `total_cache 1048576`, the only metric published is
`total_cache = 1048576`: the key keeps the prefix `total_`, there is no metric
`cache = 1048576`. -/
theorem memory_stat_key_counterexample :
    (cgroup_proc_memory c8_world enabled_state 0).out =
        [Out.psection "cgroup_memory_stats", Out.plong "total_cache" 1048576,
          Out.psectionend] ∧
      Out.plong "cache" 1048576 ∉ (cgroup_proc_memory c8_world enabled_state 0).out := by
  refine ⟨by decide, by decide⟩

end Cmonitor
